import Mathlib

/-!
Verification of the `querybuilder` SQL construction library (setiadijoe/go-utils).

The repository contains two variants of most components:
* the top-level `querybuilder` package: conditions (`condition.go`), a select
  builder with a `GROUP BY` emission bug, an insert builder with `RAW:` value
  handling, a delete builder with joins, an update builder, and dialects whose
  `Placeholder` emits exactly one token (`?`, `$n+1`, `@pn+1`, `:n+1`);
* the `querybuilder/builder` package: statement builders that escape
  identifiers, and dialects whose `Placeholder(index)` emits a comma-joined
  run of tokens derived from a loop over `index-1`.

Each Go function used by the claims is embedded as an executable Lean
definition below; theorems about those definitions follow.
-/

/-! ### Decimal rendering (the translation of Go's `fmt.Sprintf("%d", n)`) -/

/-- Digit to character, for decimal printing of naturals. -/
def digitChar : Nat → Char
  | 0 => '0' | 1 => '1' | 2 => '2' | 3 => '3' | 4 => '4'
  | 5 => '5' | 6 => '6' | 7 => '7' | 8 => '8' | _ => '9'

/-- Little-endian decimal digits of `n`, with explicit fuel so that the
definition is structural (and hence reduces inside the kernel). -/
def natDigitsRevAux : Nat → Nat → List Nat
  | 0, n => [n % 10]
  | fuel + 1, n => if n < 10 then [n] else n % 10 :: natDigitsRevAux fuel (n / 10)

/-- Little-endian decimal digits of `n`. -/
def natDigitsRev (n : Nat) : List Nat := natDigitsRevAux n n

/-- Decimal rendering of a natural number, as emitted by Go's `%d` verb for
the non-negative integers that reach `Placeholder`. -/
def natToDec (n : Nat) : String := String.mk ((natDigitsRev n).reverse.map digitChar)

/-- Value of a little-endian digit list (used to invert `natDigitsRev`). -/
def valueOfRev : List Nat → Nat
  | [] => 0
  | d :: ds => d + 10 * valueOfRev ds

/-! ### Generic string helpers translated from the Go standard library -/

/-- Translation of Go `strings.Join`. -/
def goJoin (sep : String) : List String → String
  | [] => ""
  | [x] => x
  | x :: xs => x ++ sep ++ goJoin sep xs

/-- Concatenation of a list of strings (for the `strings.Builder` loops that
append one piece per iteration). -/
def joinAll : List String → String
  | [] => ""
  | x :: xs => x ++ joinAll xs

/-- Character-level engine of Go `strings.ReplaceAll` for a non-empty
pattern, with fuel bounded by the input length so the recursion is
structural: every non-overlapping occurrence of `pat` is replaced by
`rep`. -/
def goReplaceCharsAux (pat rep : List Char) : Nat → List Char → List Char
  | _, [] => []
  | 0, s => s
  | fuel + 1, c :: rest =>
    if pat ≠ [] ∧ pat.isPrefixOf (c :: rest) then
      rep ++ goReplaceCharsAux pat rep fuel ((c :: rest).drop pat.length)
    else
      c :: goReplaceCharsAux pat rep fuel rest

/-- Every non-overlapping occurrence of `pat` replaced by `rep`. -/
def goReplaceChars (pat rep : List Char) (s : List Char) : List Char :=
  goReplaceCharsAux pat rep s.length s

/-- Translation of Go `strings.ReplaceAll` (the library only calls it with a
non-empty pattern; an empty pattern is returned unchanged here). -/
def goReplaceAll (s pat rep : String) : String :=
  if pat = "" then s else String.mk (goReplaceChars pat.data rep.data s.data)

/-- Number of (possibly overlapping) occurrences of `pat` in `s`, counted at
character positions; used to state "contains the token exactly once". -/
def countOccChars (pat : List Char) : List Char → Nat
  | [] => 0
  | c :: rest => (if pat.isPrefixOf (c :: rest) then 1 else 0) + countOccChars pat rest

/-- Occurrence count of `pat` inside `s`. -/
def strCount (s pat : String) : Nat := countOccChars pat.data s.data

/-! ### Dialects

The `Dialect` interface of the repository: `Placeholder`, `EscapeIdentifier`,
`EscapeString`.  The `kind` field records the concrete dialect type, which the
builders inspect with a Go type switch to gate LIMIT / ORDER BY / RETURNING.
-/

/-- The concrete dialect families of the repository. -/
inductive DKind | mysql | postgres | sqlite | sqlserver | oracle
deriving DecidableEq, Repr

/-- Shallow embedding of the Go `Dialect` interface. -/
structure Dialect where
  kind : DKind
  placeholder : Nat → String
  escapeIdentifier : String → String
  escapeString : String → String

/-- MySQL identifier escaping (builder package `dialect_defaults.go`):
backticks, embedded backtick doubled. -/
def escapeMySQLIdent (ident : String) : String :=
  "`" ++ goReplaceAll ident "`" "``" ++ "`"

/-- Double-quote identifier escaping (PostgreSQL, SQLite, Oracle). -/
def escapeDQIdent (ident : String) : String :=
  "\"" ++ goReplaceAll ident "\"" "\"\"" ++ "\""

/-- SQL Server identifier escaping: brackets, embedded `]` doubled. -/
def escapeBracketIdent (ident : String) : String :=
  "[" ++ goReplaceAll ident "]" "]]" ++ "]"

/-- `baseDialect.EscapeString`: single quotes, embedded quote doubled. -/
def escapeStringDefault (value : String) : String :=
  "'" ++ goReplaceAll value "'" "''" ++ "'"

/-- Top-level package `mysqlDialect`: `Placeholder` writes a single `?`.
Modelled from the spec: the top-level package's `EscapeIdentifier` methods are
not present under `src/`; per spec §4.1 they wrap the name in the dialect's
quote characters doubling embedded quotes, with the quote conventions given by
the builder package's `dialect_defaults.go`. -/
def mysqlDialect : Dialect :=
  { kind := .mysql
    placeholder := fun _ => "?"
    escapeIdentifier := escapeMySQLIdent
    escapeString := escapeStringDefault }

/-- Top-level package `postgresDialect`: `Placeholder(index)` writes
`fmt.Sprintf("$%d", index+1)`. -/
def postgresDialect : Dialect :=
  { kind := .postgres
    placeholder := fun index => "$" ++ natToDec (index + 1)
    escapeIdentifier := escapeDQIdent
    escapeString := escapeStringDefault }

/-- Top-level package `sqliteDialect`: a single `?`. -/
def sqliteDialect : Dialect :=
  { kind := .sqlite
    placeholder := fun _ => "?"
    escapeIdentifier := escapeDQIdent
    escapeString := escapeStringDefault }

/-- Top-level package `sqlserverDialect`: `fmt.Sprintf("@p%d", index+1)`. -/
def sqlserverDialect : Dialect :=
  { kind := .sqlserver
    placeholder := fun index => "@p" ++ natToDec (index + 1)
    escapeIdentifier := escapeBracketIdent
    escapeString := fun value => "N'" ++ goReplaceAll value "'" "''" ++ "'" }

/-- Top-level package `oracleDialect`: `fmt.Sprintf(":%d", index+1)`. -/
def oracleDialect : Dialect :=
  { kind := .oracle
    placeholder := fun index => ":" ++ natToDec (index + 1)
    escapeIdentifier := escapeDQIdent
    escapeString := escapeStringDefault }

/-- Builder package `mysqlDialect.Placeholder`: loops `index-1` times writing
`"?, "` and then writes one final `?` (Go `for range idx` does nothing when
`idx = index - 1` is not positive). -/
def builderMysqlPlaceholder (index : Nat) : String :=
  joinAll ((List.range (index - 1)).map (fun _ => "?, ")) ++ "?"

/-- Builder package `postgresDialect.Placeholder`: loops `index-1` times
writing `fmt.Sprintf("$%d, ", i+1)` and then writes `fmt.Sprintf("$%d", index)`. -/
def builderPostgresPlaceholder (index : Nat) : String :=
  joinAll ((List.range (index - 1)).map (fun i => "$" ++ natToDec (i + 1) ++ ", "))
    ++ "$" ++ natToDec index

/-- Builder package `sqliteDialect.Placeholder` (same loop as MySQL). -/
def builderSqlitePlaceholder (index : Nat) : String :=
  joinAll ((List.range (index - 1)).map (fun _ => "?, ")) ++ "?"

/-- Builder package `sqlserverDialect.Placeholder`. -/
def builderSqlserverPlaceholder (index : Nat) : String :=
  joinAll ((List.range (index - 1)).map (fun i => "@p" ++ natToDec (i + 1) ++ ", "))
    ++ "@p" ++ natToDec index

/-- Builder package `oracleDialect.Placeholder`. -/
def builderOraclePlaceholder (index : Nat) : String :=
  joinAll ((List.range (index - 1)).map (fun i => ":" ++ natToDec (i + 1) ++ ", "))
    ++ ":" ++ natToDec index

/-- Builder package MySQL dialect. -/
def builderMysqlDialect : Dialect :=
  { kind := .mysql
    placeholder := builderMysqlPlaceholder
    escapeIdentifier := escapeMySQLIdent
    escapeString := escapeStringDefault }

/-- Builder package PostgreSQL dialect. -/
def builderPostgresDialect : Dialect :=
  { kind := .postgres
    placeholder := builderPostgresPlaceholder
    escapeIdentifier := escapeDQIdent
    escapeString := escapeStringDefault }

/-- Builder package SQLite dialect. -/
def builderSqliteDialect : Dialect :=
  { kind := .sqlite
    placeholder := builderSqlitePlaceholder
    escapeIdentifier := escapeDQIdent
    escapeString := escapeStringDefault }

/-- Builder package SQL Server dialect. -/
def builderSqlserverDialect : Dialect :=
  { kind := .sqlserver
    placeholder := builderSqlserverPlaceholder
    escapeIdentifier := escapeBracketIdent
    escapeString := fun value => "N'" ++ goReplaceAll value "'" "''" ++ "'" }

/-- Builder package Oracle dialect. -/
def builderOracleDialect : Dialect :=
  { kind := .oracle
    placeholder := builderOraclePlaceholder
    escapeIdentifier := escapeDQIdent
    escapeString := escapeStringDefault }

/-- A dialect whose `Placeholder` renders a fixed prefix followed by the
1-based decimal index — the numbered style of the top-level package
(PostgreSQL `$`, SQL Server `@p`, Oracle `:`). -/
def numberedStyle (d : Dialect) : Prop :=
  ∃ pfx : String, ∀ i : Nat, d.placeholder i = pfx ++ natToDec (i + 1)

/-! ### Chunk streams

A rendered SQL fragment is the concatenation of literal pieces and
placeholder emissions.  `Chunk` records that decomposition: `Chunk.ph n`
stands for the string produced by the dialect's `Placeholder(n)` call. -/

/-- One emitted piece of SQL text. -/
inductive Chunk
  | lit : String → Chunk
  | ph : Nat → Chunk

/-- Render one chunk through a dialect. -/
def Chunk.render (d : Dialect) : Chunk → String
  | .lit s => s
  | .ph n => d.placeholder n

/-- Render a chunk stream to the SQL text it denotes. -/
def renderChunks (d : Dialect) : List Chunk → String
  | [] => ""
  | c :: cs => c.render d ++ renderChunks d cs

/-- The placeholder indices of a chunk stream, in left-to-right text order. -/
def phList : List Chunk → List Nat
  | [] => []
  | .lit _ :: cs => phList cs
  | .ph n :: cs => n :: phList cs

/-- Chunk-level analogue of `strings.Join`. -/
def chunkJoin (sep : String) : List (List Chunk) → List Chunk
  | [] => []
  | [x] => x
  | x :: xs => x ++ (Chunk.lit sep :: chunkJoin sep xs)

/-! ### Values

Go passes `any` values through the builders.  `Val` covers the shapes the
library distinguishes: plain values (kept opaque inside the argument list),
strings (inspected by `insertBuilder.Values` for the `RAW:` prefix), raw SQL
expressions (`rawSQL`), and SQL-builder values used by subquery conditions,
which the condition code only observes through their `ToSQL` result. -/

/-- Shallow embedding of the `any` values handled by the library. -/
inductive Val
  | vint (n : Int)
  | vstr (s : String)
  | vbool (b : Bool)
  | vnil
  | vlist (vs : List Val)
  | vraw (value : String) (safe : Bool)
  | vsub (res : Except String (String × List Val))

/-- The `valueType` tag of `baseCondition`: `"value"`, `"column"`, `"subquery"`. -/
inductive ValKind | value | column | subquery
deriving DecidableEq

/-- Go type assertion `value.(string)` used by the `"column"` value kind.
Go would panic on a non-string; the library only stores strings there. -/
def Val.goString : Val → String
  | .vstr s => s
  | _ => ""

/-- Go type assertion `value.(SQLBuilder)` followed by `ToSQL()` for the
`"subquery"` value kind; the builder value is observed only through its
render result. -/
def Val.goSub : Val → Except String (String × List Val)
  | .vsub r => r
  | _ => .ok ("", [])

/-- `subquery, subArgs, _ := ...ToSQL()` — Go discards the error; a failed
render leaves the zero values `""` and `nil`. -/
def resOrEmpty : Except String (String × List Val) → String × List Val
  | .error _ => ("", [])
  | .ok r => r

/-! ### Conditions (top-level package `condition.go`) -/

/-- The condition tree: `baseCondition`, `betweenCondition`,
`logicalCondition`. -/
inductive Cond
  | base (column : String) (operator : String) (value : Val) (valueType : ValKind)
  | between (column : String) (lo hi : Val)
  | logical (operator : String) (conditions : List Cond)

/-- `Eq(column, value)` predicate constructor. -/
def qEq (column : String) (value : Val) : Cond := .base column "=" value .value

/-- `Gt(column, value)` predicate constructor. -/
def qGt (column : String) (value : Val) : Cond := .base column ">" value .value

/-- `IsNull(column)` predicate constructor. -/
def qIsNull (column : String) : Cond := .base column "IS NULL" .vnil .value

/-- `ColumnEq(column1, column2)` predicate constructor. -/
def qColumnEq (column1 column2 : String) : Cond := .base column1 "=" (.vstr column2) .column

/-- `Between(column, from, to)` predicate constructor. -/
def qBetween (column : String) (lo hi : Val) : Cond := .between column lo hi

/-- `And(conditions...)` combinator. -/
def qAnd (conditions : List Cond) : Cond := .logical "AND" conditions

/-- `Or(conditions...)` combinator. -/
def qOr (conditions : List Cond) : Cond := .logical "OR" conditions

mutual

/-- `ToSQL(dialect, argPos)` of the three condition node types in
`condition.go`: returns the SQL fragment, the contributed arguments in
order, and the updated shared counter (`*argPos` threaded by value). -/
def Cond.toSQL (c : Cond) (d : Dialect) (argPos : Nat) : String × List Val × Nat :=
  match c with
  | .base column operator value valueType =>
    let head := d.escapeIdentifier column ++ " " ++ operator
    if operator = "IS NULL" ∨ operator = "IS NOT NULL" then
      (head, [], argPos)
    else
      match valueType with
      | .column => (head ++ " " ++ d.escapeIdentifier value.goString, [], argPos)
      | .subquery =>
        let sub := resOrEmpty value.goSub
        (head ++ " " ++ "(" ++ sub.1 ++ ")", sub.2, argPos)
      | .value => (head ++ " " ++ d.placeholder argPos, [value], argPos + 1)
  | .between column lo hi =>
    (d.escapeIdentifier column ++ " BETWEEN " ++ d.placeholder argPos ++ " AND "
      ++ d.placeholder (argPos + 1), [lo, hi], argPos + 2)
  | .logical operator conditions =>
    if conditions.length = 0 then ("", [], argPos)
    else
      let rec0 := condListSQL conditions d argPos
      let joined := goJoin (" " ++ operator ++ " ") rec0.1
      if rec0.1.length > 1 then ("(" ++ joined ++ ")", rec0.2.1, rec0.2.2)
      else (joined, rec0.2.1, rec0.2.2)

/-- The rendering loop shared by `logicalCondition.ToSQL` and the package
helper `buildConditions`: renders each condition in list order, collecting
fragments and splicing arguments, threading the counter. -/
def condListSQL (cs : List Cond) (d : Dialect) (argPos : Nat) :
    List String × List Val × Nat :=
  match cs with
  | [] => ([], [], argPos)
  | c :: rest =>
    let r1 := c.toSQL d argPos
    let r2 := condListSQL rest d r1.2.2
    (r1.1 :: r2.1, r1.2.1 ++ r2.2.1, r2.2.2)

end

mutual

/-- Chunk-level instrumentation of `Cond.toSQL`: identical control flow, but
every `Placeholder` emission is kept as an explicit `Chunk.ph`. -/
def Cond.chunks (c : Cond) (d : Dialect) (argPos : Nat) : List Chunk × List Val × Nat :=
  match c with
  | .base column operator value valueType =>
    let head := d.escapeIdentifier column ++ " " ++ operator
    if operator = "IS NULL" ∨ operator = "IS NOT NULL" then
      ([.lit head], [], argPos)
    else
      match valueType with
      | .column => ([.lit (head ++ " " ++ d.escapeIdentifier value.goString)], [], argPos)
      | .subquery =>
        let sub := resOrEmpty value.goSub
        ([.lit (head ++ " " ++ "(" ++ sub.1 ++ ")")], sub.2, argPos)
      | .value => ([.lit (head ++ " "), .ph argPos], [value], argPos + 1)
  | .between column lo hi =>
    ([.lit (d.escapeIdentifier column ++ " BETWEEN "), .ph argPos, .lit " AND ",
      .ph (argPos + 1)], [lo, hi], argPos + 2)
  | .logical operator conditions =>
    if conditions.length = 0 then ([], [], argPos)
    else
      let rec0 := condListChunks conditions d argPos
      let joined := chunkJoin (" " ++ operator ++ " ") rec0.1
      if rec0.1.length > 1 then (Chunk.lit "(" :: (joined ++ [Chunk.lit ")"]), rec0.2.1, rec0.2.2)
      else (joined, rec0.2.1, rec0.2.2)

/-- Chunk-level instrumentation of `condListSQL`. -/
def condListChunks (cs : List Cond) (d : Dialect) (argPos : Nat) :
    List (List Chunk) × List Val × Nat :=
  match cs with
  | [] => ([], [], argPos)
  | c :: rest =>
    let r1 := c.chunks d argPos
    let r2 := condListChunks rest d r1.2.2
    (r1.1 :: r2.1, r1.2.1 ++ r2.2.1, r2.2.2)

end

mutual

/-- `true` when no `"subquery"`-kind leaf occurs in the tree — the condition
forms built by the comparison/NULL/BETWEEN/AND/OR constructors. -/
def Cond.noSub : Cond → Bool
  | .base _ _ _ valueType => valueType ≠ ValKind.subquery
  | .between _ _ _ => true
  | .logical _ conditions => condListNoSub conditions

/-- `Cond.noSub` over a list of children. -/
def condListNoSub : List Cond → Bool
  | [] => true
  | c :: rest => c.noSub && condListNoSub rest

end

/-! ### Shape of chunk streams (used for the repeated-render analysis) -/

/-- Two chunk streams have the same shape when their literal pieces agree
and their placeholder emissions line up position by position (with possibly
different indices). -/
inductive SameShape : List Chunk → List Chunk → Prop
  | nil : SameShape [] []
  | lit (s : String) {cs ds : List Chunk} :
      SameShape cs ds → SameShape (.lit s :: cs) (.lit s :: ds)
  | ph (m n : Nat) {cs ds : List Chunk} :
      SameShape cs ds → SameShape (.ph m :: cs) (.ph n :: ds)

/-! ### Select builder (top-level package `select.go`, the variant with the
unconditional GROUP BY write) -/

/-- `subquery` struct: an `SQLBuilder` plus an alias.  The embedded builder is
observed only through its `ToSQL` result, recorded in `result`; `asName` is
the Go `alias` field (`alias` is reserved in this environment). -/
structure Subq where
  result : Except String (String × List Val)
  asName : String

/-- `subquery.ToSQL`: renders the inner builder and parenthesizes, or
propagates the inner error. -/
def Subq.toSQL (s : Subq) : Except String (String × List Val) :=
  match s.result with
  | .error e => .error e
  | .ok (sql, args) => .ok ("(" ++ sql ++ ")", args)

/-- The `join` record: kind, plain table or subquery, ON text. -/
structure Join where
  joinType : String
  table : String
  subquery : Option Subq
  condition : String

/-- One ORDER BY entry. -/
structure Order where
  column : String
  direction : String

/-- `selectBuilder` state. -/
structure SelectB where
  dialect : Dialect
  distinct : Bool := false
  columns : List String := []
  table : String := ""
  joins : List Join := []
  whereConds : List Cond := []
  groupBy : List String := []
  having : List Cond := []
  orderBy : List Order := []
  limit : Option Int := none
  offset : Option Int := none
  paramCount : Nat := 0
  subquery : Option Subq := none

/-- `buildSelectClause`: `SELECT`, optional `DISTINCT`, `*` for an empty
column list, otherwise the comma-joined columns written verbatim. -/
def buildSelectClause (sb : SelectB) : String :=
  "SELECT " ++ (if sb.distinct then "DISTINCT " else "")
    ++ (if sb.columns.length = 0 then "*" else goJoin ", " sb.columns)

/-- `buildFromClause`: table name verbatim, or the rendered subquery with an
`AS alias` suffix when the alias is non-empty; the subquery render error is
returned. -/
def buildFromClause (sb : SelectB) : Except String (String × List Val) :=
  match sb.subquery with
  | some sub =>
    match sub.toSQL with
    | .error e => .error e
    | .ok (subSQL, subArgs) =>
      .ok (" FROM " ++ subSQL
        ++ (if sub.asName ≠ "" then " AS " ++ sub.asName else ""), subArgs)
  | none => .ok (" FROM " ++ sb.table, [])

/-- One iteration of the `buildJoinClauses` loop. -/
def joinClause (j : Join) : Except String (String × List Val) :=
  match j.subquery with
  | some sub =>
    match sub.toSQL with
    | .error e => .error e
    | .ok (subSQL, subArgs) =>
      .ok (" " ++ j.joinType ++ " JOIN " ++ subSQL
        ++ (if sub.asName ≠ "" then " AS " ++ sub.asName else "")
        ++ " ON " ++ j.condition, subArgs)
  | none =>
    .ok (" " ++ j.joinType ++ " JOIN " ++ j.table ++ " ON " ++ j.condition, [])

/-- `buildJoinClauses`: renders each join in order, concatenating text and
splicing arguments; the first failing subquery aborts with its error. -/
def buildJoinClauses : List Join → Except String (String × List Val)
  | [] => .ok ("", [])
  | j :: rest =>
    match joinClause j with
    | .error e => .error e
    | .ok (s, args) =>
      match buildJoinClauses rest with
      | .error e => .error e
      | .ok (s2, args2) => .ok (s ++ s2, args ++ args2)

/-- `buildWhereClause`: nothing when no conditions; otherwise ` WHERE ` and
the fragments of `buildConditions` joined by ` AND `, threading the shared
counter. -/
def buildWhereClause (conds : List Cond) (d : Dialect) (pc : Nat) :
    String × List Val × Nat :=
  if conds.length = 0 then ("", [], pc)
  else
    let r := condListSQL conds d pc
    (" WHERE " ++ goJoin " AND " r.1, r.2.1, r.2.2)

/-- `buildGroupByClause` of the top-level select variant: the guard on an
empty column list has an empty body, so ` GROUP BY ` is written
unconditionally, followed by the comma-joined columns (verbatim). -/
def buildGroupByClause (sb : SelectB) : String :=
  " GROUP BY " ++ goJoin ", " sb.groupBy

/-- `buildHavingClause`: like WHERE with the ` HAVING ` keyword. -/
def buildHavingClause (conds : List Cond) (d : Dialect) (pc : Nat) :
    String × List Val × Nat :=
  if conds.length = 0 then ("", [], pc)
  else
    let r := condListSQL conds d pc
    (" HAVING " ++ goJoin " AND " r.1, r.2.1, r.2.2)

/-- `buildOrderByClause` (select variant): comma-joined `column direction`
entries, columns verbatim. -/
def buildOrderByClause (sb : SelectB) : String :=
  if sb.orderBy.length = 0 then ""
  else " ORDER BY " ++ goJoin ", " (sb.orderBy.map (fun o => o.column ++ " " ++ o.direction))

/-- `buildLimitClause` (select variant): one placeholder from the shared
counter, the bound passed as an argument. -/
def buildLimitClause (sb : SelectB) (pc : Nat) : String × List Val × Nat :=
  match sb.limit with
  | none => ("", [], pc)
  | some v => (" LIMIT " ++ sb.dialect.placeholder pc, [.vint v], pc + 1)

/-- `buildOffsetClause` (select variant). -/
def buildOffsetClause (sb : SelectB) (pc : Nat) : String × List Val × Nat :=
  match sb.offset with
  | none => ("", [], pc)
  | some v => (" OFFSET " ++ sb.dialect.placeholder pc, [.vint v], pc + 1)

/-- `selectBuilder.ToSQL`: validates the FROM source, renders the clauses in
the fixed order SELECT, FROM, JOIN*, WHERE, GROUP BY, HAVING, ORDER BY,
LIMIT, OFFSET, and returns the query, the collected arguments, and the
builder with its mutated `paramCount` (the only field `ToSQL` writes). -/
def selectToSQL (sb : SelectB) : Except String (String × List Val) × SelectB :=
  if sb.table = "" ∧ sb.subquery.isNone then
    (.error "no table or subquery specified for FROM clause", sb)
  else
    match buildFromClause sb with
    | .error e => (.error e, sb)
    | .ok (fromStr, fromArgs) =>
      match buildJoinClauses sb.joins with
      | .error e => (.error e, sb)
      | .ok (joinStr, joinArgs) =>
        let w := buildWhereClause sb.whereConds sb.dialect sb.paramCount
        let g := buildGroupByClause sb
        let h := buildHavingClause sb.having sb.dialect w.2.2
        let o := buildOrderByClause sb
        let l := buildLimitClause sb h.2.2
        let f := buildOffsetClause sb l.2.2
        (.ok (buildSelectClause sb ++ fromStr ++ joinStr ++ w.1 ++ g ++ h.1 ++ o
            ++ l.1 ++ f.1,
          fromArgs ++ joinArgs ++ w.2.1 ++ h.2.1 ++ l.2.1 ++ f.2.1),
         { sb with paramCount := f.2.2 })

/-! ### Insert builder (top-level package `insert.go` with `RAW:` handling) -/

/-- `ConflictAction`: optional target, DO NOTHING flag, DO UPDATE
column-value mapping.  The Go field is an unordered `map[string]any`; its
iteration order is modelled by the association-list order. -/
structure ConflictAction where
  target : String
  doNothing : Bool
  doUpdate : List (String × Val)

/-- `insertBuilder` state. -/
structure InsertB where
  dialect : Dialect
  table : String := ""
  columns : List String := []
  values : List (List Val) := []
  useDefaults : Bool := false
  fromSelect : Option SelectB := none
  conflict : Option ConflictAction := none
  returning : List String := []
  paramCounter : Nat := 0

/-- The number of selected insertion modes, as counted by `validateInsert`. -/
def insertionMethods (ib : InsertB) : Nat :=
  (if ib.values.length > 0 then 1 else 0)
    + (if ib.fromSelect.isSome then 1 else 0)
    + (if ib.useDefaults then 1 else 0)

/-- `validateInsert`: missing table, then the insertion-mode count, then the
per-row arity check against a non-empty column list; returns the first error
message or `none`. -/
def validateInsert (ib : InsertB) : Option String :=
  if ib.table = "" then some "no table specified"
  else if insertionMethods ib = 0 then
    some "no values, select query, or DEFAULT VALUES specified"
  else if insertionMethods ib > 1 then
    some "cannot specify multiple insertion methods (VALUES, FROM SELECT, DEFAULT VALUES)"
  else if ib.columns.length > 0 ∧ ib.values.length > 0 then
    match ib.values.find? (fun row => row.length ≠ ib.columns.length) with
    | some row =>
      some ("number of values (" ++ natToDec row.length ++ ") doesn't match columns ("
        ++ natToDec ib.columns.length ++ ")")
    | none => none
  else none

/-- `buildColumns`: parenthesized verbatim column list, skipped when empty or
when DEFAULT VALUES was selected. -/
def buildColumns (ib : InsertB) : String :=
  if ib.columns.length > 0 ∧ ¬ib.useDefaults then
    " (" ++ goJoin ", " ib.columns ++ ")"
  else ""

/-- The inner loop of the VALUES rendering: each value consumes one
placeholder, except a `rawSQL` value, which is spliced verbatim with no
argument. -/
def rowRender (d : Dialect) : List Val → Nat → List String × List Val × Nat
  | [], pc => ([], [], pc)
  | v :: rest, pc =>
    match v with
    | .vraw s _ =>
      let r := rowRender d rest pc
      (s :: r.1, r.2.1, r.2.2)
    | _ =>
      let r := rowRender d rest (pc + 1)
      (d.placeholder pc :: r.1, v :: r.2.1, r.2.2)

/-- The outer loop of the VALUES rendering: comma-separated parenthesized
rows. -/
def rowsRender (d : Dialect) : List (List Val) → Nat → List String × List Val × Nat
  | [], pc => ([], [], pc)
  | row :: rest, pc =>
    let r1 := rowRender d row pc
    let r2 := rowsRender d rest r1.2.2
    (("(" ++ goJoin ", " r1.1 ++ ")") :: r2.1, r1.2.1 ++ r2.2.1, r2.2.2)

/-- `buildValuesOrSelectOrDefault`: `DEFAULT VALUES`, the rendered FROM-SELECT
(propagating its error), or the VALUES rows. -/
def buildValuesOrSelectOrDefault (ib : InsertB) (pc : Nat) :
    Except String (String × List Val × Nat) :=
  if ib.useDefaults then .ok (" DEFAULT VALUES", [], pc)
  else
    match ib.fromSelect with
    | some sel =>
      match (selectToSQL sel).1 with
      | .error e => .error e
      | .ok (selectSQL, selectArgs) => .ok (" " ++ selectSQL, selectArgs, pc)
    | none =>
      let r := rowsRender ib.dialect ib.values pc
      .ok (" VALUES " ++ goJoin ", " r.1, r.2.1, r.2.2)

/-- The DO UPDATE SET loop: verbatim column, ` = `, one placeholder each. -/
def doUpdateRender (d : Dialect) : List (String × Val) → Nat → List String × List Val × Nat
  | [], pc => ([], [], pc)
  | (col, val) :: rest, pc =>
    let r := doUpdateRender d rest (pc + 1)
    ((col ++ " = " ++ d.placeholder pc) :: r.1, val :: r.2.1, r.2.2)

/-- `buildOnConflict`: optional ` ON CONFLICT`, parenthesized target when
non-empty, then DO NOTHING or DO UPDATE SET with one placeholder per column. -/
def buildOnConflict (ib : InsertB) (pc : Nat) : String × List Val × Nat :=
  match ib.conflict with
  | none => ("", [], pc)
  | some ca =>
    let head := " ON CONFLICT" ++ (if ca.target ≠ "" then " (" ++ ca.target ++ ")" else "")
    if ca.doNothing then (head ++ " DO NOTHING", [], pc)
    else if ca.doUpdate.length > 0 then
      let r := doUpdateRender ib.dialect ca.doUpdate pc
      (head ++ " DO UPDATE SET " ++ goJoin ", " r.1, r.2.1, r.2.2)
    else (head, [], pc)

/-- `buildReturning` (insert variant): verbatim comma-joined column list. -/
def buildReturning (ib : InsertB) : String :=
  if ib.returning.length > 0 then " RETURNING " ++ goJoin ", " ib.returning else ""

/-- `insertBuilder.ToSQL`: validation, `INSERT INTO` with the verbatim table
name, the column list, the selected insertion mode, ON CONFLICT, RETURNING;
arguments are the VALUES/SELECT arguments followed by the conflict
arguments. -/
def insertToSQL (ib : InsertB) : Except String (String × List Val) × InsertB :=
  match validateInsert ib with
  | some e => (.error e, ib)
  | none =>
    match buildValuesOrSelectOrDefault ib ib.paramCounter with
    | .error e => (.error e, ib)
    | .ok (valStr, valArgs, pc1) =>
      let cf := buildOnConflict ib pc1
      (.ok ("INSERT INTO " ++ ib.table ++ buildColumns ib ++ valStr ++ cf.1
          ++ buildReturning ib, valArgs ++ cf.2.1),
       { ib with paramCounter := cf.2.2 })

/-! ### `Raw` and the `Values` pre-processing (insert variant with the
injection blocklist) -/

/-- Go regexp `\w`: ASCII letters, digits, underscore. -/
def isWordChar (c : Char) : Bool := c.isAlpha || c.isDigit || c = '_'

/-- Case-insensitive prefix test against a lowercase keyword. -/
def ciPre : List Char → List Char → Bool
  | [], _ => true
  | _ :: _, [] => false
  | k :: ks, c :: cs => (c.toLower = k) && ciPre ks cs

/-- `\b` before a match: start of text or a preceding non-word character. -/
def boundaryBefore : Option Char → Bool
  | none => true
  | some c => !isWordChar c

/-- `\b` after a match: end of text or a following non-word character. -/
def boundaryAfter : List Char → Bool
  | [] => true
  | c :: _ => !isWordChar c

/-- Scan for a word-bounded, case-insensitive occurrence of `kw`, tracking
the previous character for the leading boundary. -/
def scanKW (kw : List Char) : Option Char → List Char → Bool
  | _, [] => false
  | prev, c :: cs =>
    (boundaryBefore prev && ciPre kw (c :: cs) && boundaryAfter ((c :: cs).drop kw.length))
      || scanKW kw (some c) cs

/-- The `sqlInjectionRegex` match:
`(?i)(\bDROP\b|\bDELETE\b|\bINSERT\b|\bUPDATE\b|\bALTER\b)`. -/
def matchesInjection (s : String) : Bool :=
  ["drop", "delete", "insert", "update", "alter"].any
    (fun kw => scanKW kw.data none s.data)

/-- `Raw(value)`: panics (modelled as `.error`) on a regex match, otherwise
wraps the text as a `rawSQL` value. -/
def rawExpr (value : String) : Except String Val :=
  if matchesInjection value then .error "potentially dangerous raw SQL expression"
  else .ok (.vraw value false)

/-- Go `strings.HasPrefix`. -/
def goHasPre (pre s : String) : Bool := pre.data.isPrefixOf s.data

/-- Go `strings.TrimPrefix`. -/
def goTrimPre (pre s : String) : String :=
  if goHasPre pre s then String.mk (s.data.drop pre.length) else s

/-- The per-value conversion inside `insertBuilder.Values`: a plain string
with the `RAW:` prefix becomes `Raw(text-after-prefix)`. -/
def processValue (v : Val) : Except String Val :=
  match v with
  | .vstr s => if goHasPre "RAW:" s then rawExpr (goTrimPre "RAW:" s) else .ok v
  | _ => .ok v

/-- The conversion loop of `Values`; the first panicking `Raw` aborts. -/
def processValues : List Val → Except String (List Val)
  | [] => .ok []
  | v :: rest =>
    match processValue v with
    | .error e => .error e
    | .ok v2 =>
      match processValues rest with
      | .error e => .error e
      | .ok rest2 => .ok (v2 :: rest2)

/-- `insertBuilder.Values(values...)`: converts `RAW:` strings (which may
panic) and appends the processed row. -/
def insertValues (ib : InsertB) (vs : List Val) : Except String InsertB :=
  match processValues vs with
  | .error e => .error e
  | .ok pv => .ok { ib with values := ib.values ++ [pv] }

/-! ### Update builder (top-level package `update.go`) -/

/-- One SET assignment. -/
structure SetClause where
  column : String
  value : Val
  isRaw : Bool

/-- `updateBuilder` state. -/
structure UpdateB where
  dialect : Dialect
  table : String := ""
  sets : List SetClause := []
  whereConds : List Cond := []
  orderBy : List Order := []
  limit : Option Int := none
  returning : List String := []
  paramCount : Nat := 0

/-- The `buildSetClause` loop: escaped column, ` = `, then either the raw
expression text (type-asserted string) or one placeholder consuming a
counter slot. -/
def setsRender (d : Dialect) : List SetClause → Nat → List String × List Val × Nat
  | [], pc => ([], [], pc)
  | s :: rest, pc =>
    if s.isRaw then
      let r := setsRender d rest pc
      ((d.escapeIdentifier s.column ++ " = " ++ s.value.goString) :: r.1, r.2.1, r.2.2)
    else
      let r := setsRender d rest (pc + 1)
      ((d.escapeIdentifier s.column ++ " = " ++ d.placeholder pc) :: r.1,
        s.value :: r.2.1, r.2.2)

/-- `updateBuilder.buildSetClause`. -/
def buildSetClause (u : UpdateB) (pc : Nat) : String × List Val × Nat :=
  let r := setsRender u.dialect u.sets pc
  (" SET " ++ goJoin ", " r.1, r.2.1, r.2.2)

/-- `updateBuilder.buildWhereClause`. -/
def buildWhereClauseU (u : UpdateB) (pc : Nat) : String × List Val × Nat :=
  if u.whereConds.length = 0 then ("", [], pc)
  else
    let r := condListSQL u.whereConds u.dialect pc
    (" WHERE " ++ goJoin " AND " r.1, r.2.1, r.2.2)

/-- `updateBuilder.buildOrderByClause`: escaped columns. -/
def buildOrderByClauseU (u : UpdateB) : String :=
  if u.orderBy.length = 0 then ""
  else " ORDER BY " ++ goJoin ", "
    (u.orderBy.map (fun o => u.dialect.escapeIdentifier o.column ++ " " ++ o.direction))

/-- `updateBuilder.buildLimitClause`: emitted only for the MySQL/SQLite
dialect types (Go type switch), one placeholder plus the bound argument. -/
def buildLimitClauseU (u : UpdateB) (pc : Nat) : String × List Val × Nat :=
  match u.limit with
  | none => ("", [], pc)
  | some v =>
    match u.dialect.kind with
    | .mysql | .sqlite => (" LIMIT " ++ u.dialect.placeholder pc, [.vint v], pc + 1)
    | _ => ("", [], pc)

/-- `updateBuilder.buildReturningClause`: only for PostgreSQL/SQLite,
escaped columns. -/
def buildReturningClauseU (u : UpdateB) : String :=
  if u.returning.length = 0 then ""
  else
    match u.dialect.kind with
    | .postgres | .sqlite =>
      " RETURNING " ++ goJoin ", " (u.returning.map u.dialect.escapeIdentifier)
    | _ => ""

/-- `updateBuilder.ToSQL`: table/SET validation, then `UPDATE`, SET, WHERE,
ORDER BY, LIMIT, RETURNING; arguments are SET, WHERE, LIMIT in that order. -/
def updateToSQL (u : UpdateB) : Except String (String × List Val) × UpdateB :=
  if u.table = "" then (.error "no table specified", u)
  else if u.sets.length = 0 then (.error "no set values specified", u)
  else
    let st := buildSetClause u u.paramCount
    let w := buildWhereClauseU u st.2.2
    let o := buildOrderByClauseU u
    let l := buildLimitClauseU u w.2.2
    let ret := buildReturningClauseU u
    (.ok ("UPDATE " ++ u.dialect.escapeIdentifier u.table ++ st.1 ++ w.1 ++ o ++ l.1 ++ ret,
        st.2.1 ++ w.2.1 ++ l.2.1),
     { u with paramCount := l.2.2 })

/-! ### Delete builder (top-level package `delete.go`: verbatim identifiers,
join support) -/

/-- `deleteBuilder` state (top-level variant). -/
structure DeleteB where
  dialect : Dialect
  table : String := ""
  whereConds : List Cond := []
  orderBy : List Order := []
  limit : Option Int := none
  returning : List String := []
  paramCount : Nat := 0
  joins : List Join := []

/-- Delete `buildOrderByClause`: MySQL/SQLite only, columns verbatim. -/
def buildOrderByClauseD (db : DeleteB) : String :=
  if db.orderBy.length = 0 then ""
  else
    match db.dialect.kind with
    | .mysql | .sqlite =>
      " ORDER BY " ++ goJoin ", " (db.orderBy.map (fun o => o.column ++ " " ++ o.direction))
    | _ => ""

/-- Delete `buildLimitClause`: MySQL/SQLite only. -/
def buildLimitClauseD (db : DeleteB) (pc : Nat) : String × List Val × Nat :=
  match db.limit with
  | none => ("", [], pc)
  | some v =>
    match db.dialect.kind with
    | .mysql | .sqlite => (" LIMIT " ++ db.dialect.placeholder pc, [.vint v], pc + 1)
    | _ => ("", [], pc)

/-- Delete `buildReturningClause`: PostgreSQL/SQLite only, columns verbatim. -/
def buildReturningClauseD (db : DeleteB) : String :=
  if db.returning.length = 0 then ""
  else
    match db.dialect.kind with
    | .postgres | .sqlite => " RETURNING " ++ goJoin ", " db.returning
    | _ => ""

/-- `deleteBuilder.ToSQL` (top-level variant): `DELETE FROM` with the table
written verbatim, verbatim `JOIN` clauses, WHERE, gated ORDER BY, gated
LIMIT, gated RETURNING. -/
def deleteToSQL (db : DeleteB) : Except String (String × List Val) × DeleteB :=
  if db.table = "" then (.error "no table specified", db)
  else
    let joinStr := joinAll (db.joins.map
      (fun j => " " ++ j.joinType ++ " JOIN " ++ j.table ++ " ON " ++ j.condition))
    let w := buildWhereClause db.whereConds db.dialect db.paramCount
    let o := buildOrderByClauseD db
    let l := buildLimitClauseD db w.2.2
    let ret := buildReturningClauseD db
    (.ok ("DELETE FROM " ++ db.table ++ joinStr ++ w.1 ++ o ++ l.1 ++ ret,
        w.2.1 ++ l.2.1),
     { db with paramCount := l.2.2 })

/-! ### Delete builder (builder package `delete.go`: escaped identifiers, no
joins) -/

/-- `deleteBuilder` state (builder-package variant). -/
structure BDeleteB where
  dialect : Dialect
  table : String := ""
  whereConds : List Cond := []
  orderBy : List Order := []
  limit : Option Int := none
  returning : List String := []
  paramCount : Nat := 0

/-- Builder-package delete ORDER BY: MySQL/SQLite only, escaped columns. -/
def buildOrderByClauseBD (db : BDeleteB) : String :=
  if db.orderBy.length = 0 then ""
  else
    match db.dialect.kind with
    | .mysql | .sqlite =>
      " ORDER BY " ++ goJoin ", "
        (db.orderBy.map (fun o => db.dialect.escapeIdentifier o.column ++ " " ++ o.direction))
    | _ => ""

/-- Builder-package delete LIMIT: MySQL/SQLite only. -/
def buildLimitClauseBD (db : BDeleteB) (pc : Nat) : String × List Val × Nat :=
  match db.limit with
  | none => ("", [], pc)
  | some v =>
    match db.dialect.kind with
    | .mysql | .sqlite => (" LIMIT " ++ db.dialect.placeholder pc, [.vint v], pc + 1)
    | _ => ("", [], pc)

/-- Builder-package delete RETURNING: PostgreSQL/SQLite only, escaped
columns. -/
def buildReturningClauseBD (db : BDeleteB) : String :=
  if db.returning.length = 0 then ""
  else
    match db.dialect.kind with
    | .postgres | .sqlite =>
      " RETURNING " ++ goJoin ", " (db.returning.map db.dialect.escapeIdentifier)
    | _ => ""

/-- Builder-package `deleteBuilder.ToSQL`: `DELETE FROM` with the table
rendered through `EscapeIdentifier`, then WHERE, gated ORDER BY, gated
LIMIT, gated RETURNING. -/
def builderDeleteToSQL (db : BDeleteB) : Except String (String × List Val) × BDeleteB :=
  if db.table = "" then (.error "no table specified", db)
  else
    let w := buildWhereClause db.whereConds db.dialect db.paramCount
    let o := buildOrderByClauseBD db
    let l := buildLimitClauseBD db w.2.2
    let ret := buildReturningClauseBD db
    (.ok ("DELETE FROM " ++ db.dialect.escapeIdentifier db.table ++ w.1 ++ o ++ l.1 ++ ret,
        w.2.1 ++ l.2.1),
     { db with paramCount := l.2.2 })

/-! ### Chunk instrumentation of the select and update renders -/

/-- Chunk form of a WHERE/HAVING-style clause: keyword literal plus the
condition chunks joined by ` AND `. -/
def condClauseChunks (kw : String) (conds : List Cond) (d : Dialect) (pc : Nat) :
    List Chunk × List Val × Nat :=
  if conds.length = 0 then ([], [], pc)
  else
    let r := condListChunks conds d pc
    (Chunk.lit kw :: chunkJoin " AND " r.1, r.2.1, r.2.2)

/-- Chunk form of the select LIMIT clause. -/
def limitChunks (sb : SelectB) (pc : Nat) : List Chunk × List Val × Nat :=
  match sb.limit with
  | none => ([], [], pc)
  | some v => ([Chunk.lit " LIMIT ", Chunk.ph pc], [.vint v], pc + 1)

/-- Chunk form of the select OFFSET clause. -/
def offsetChunks (sb : SelectB) (pc : Nat) : List Chunk × List Val × Nat :=
  match sb.offset with
  | none => ([], [], pc)
  | some v => ([Chunk.lit " OFFSET ", Chunk.ph pc], [.vint v], pc + 1)

/-- FROM-clause text when rendering succeeded (for the chunk skeleton). -/
def fromStrOf (sb : SelectB) : String :=
  match buildFromClause sb with
  | .error _ => ""
  | .ok (s, _) => s

/-- JOIN-clause text when rendering succeeded (for the chunk skeleton). -/
def joinStrOf (sb : SelectB) : String :=
  match buildJoinClauses sb.joins with
  | .error _ => ""
  | .ok (s, _) => s

/-- The chunk skeleton of a successful select render: literal SELECT, FROM,
JOIN, GROUP BY and ORDER BY pieces with placeholder-bearing WHERE, HAVING,
LIMIT and OFFSET chunks in clause order. -/
def selChunksOf (sb : SelectB) : List Chunk :=
  let w := condClauseChunks " WHERE " sb.whereConds sb.dialect sb.paramCount
  let h := condClauseChunks " HAVING " sb.having sb.dialect w.2.2
  let l := limitChunks sb h.2.2
  let f := offsetChunks sb l.2.2
  Chunk.lit (buildSelectClause sb) :: Chunk.lit (fromStrOf sb) :: Chunk.lit (joinStrOf sb) ::
    (w.1 ++ Chunk.lit (buildGroupByClause sb) ::
      (h.1 ++ Chunk.lit (buildOrderByClause sb) :: (l.1 ++ f.1)))

/-- Chunk instrumentation of the `buildSetClause` loop. -/
def setsChunks (d : Dialect) : List SetClause → Nat → List (List Chunk) × List Val × Nat
  | [], pc => ([], [], pc)
  | s :: rest, pc =>
    if s.isRaw then
      let r := setsChunks d rest pc
      ([Chunk.lit (d.escapeIdentifier s.column ++ " = " ++ s.value.goString)] :: r.1,
        r.2.1, r.2.2)
    else
      let r := setsChunks d rest (pc + 1)
      ([Chunk.lit (d.escapeIdentifier s.column ++ " = "), Chunk.ph pc] :: r.1,
        s.value :: r.2.1, r.2.2)

/-- Chunk form of the update LIMIT clause (dialect-gated). -/
def limitChunksU (u : UpdateB) (pc : Nat) : List Chunk × List Val × Nat :=
  match u.limit with
  | none => ([], [], pc)
  | some v =>
    match u.dialect.kind with
    | .mysql | .sqlite => ([Chunk.lit " LIMIT ", Chunk.ph pc], [.vint v], pc + 1)
    | _ => ([], [], pc)

/-- The chunk skeleton of a successful update render. -/
def updChunksOf (u : UpdateB) : List Chunk :=
  let st := setsChunks u.dialect u.sets u.paramCount
  let w := condClauseChunks " WHERE " u.whereConds u.dialect st.2.2
  let l := limitChunksU u w.2.2
  Chunk.lit ("UPDATE " ++ u.dialect.escapeIdentifier u.table) :: Chunk.lit " SET " ::
    (chunkJoin ", " st.1 ++ (w.1 ++ Chunk.lit (buildOrderByClauseU u) ::
      (l.1 ++ [Chunk.lit (buildReturningClauseU u)])))

/-! ### Concrete instances used by the witnesses and counterexamples -/

/-- `And(Eq("a", 1), Between("b", 2, 3))`. -/
def w1cond : Cond := qAnd [qEq "a" (.vint 1), qBetween "b" (.vint 2) (.vint 3)]

/-- The builder chain `Select("id").From("t").Where(Eq("x", 5))`. -/
def c2sel (d : Dialect) : SelectB :=
  { dialect := d, columns := ["id"], table := "t", whereConds := [qEq "x" (.vint 5)] }

/-- A select builder with no table and no FROM-subquery: its render fails. -/
def emptySel : SelectB := { dialect := mysqlDialect }

/-- A select builder that renders successfully. -/
def okSel : SelectB := { dialect := mysqlDialect, table := "s" }

/-- `Insert("t").Values(1)`. -/
def c5okIb : InsertB := { dialect := mysqlDialect, table := "t", values := [[.vint 1]] }

/-- `Insert("t").Values(1).FromSelect(okSel)`: two insertion modes. -/
def c5conflictIb : InsertB :=
  { dialect := mysqlDialect, table := "t", values := [[.vint 1]], fromSelect := some okSel }

/-- `Insert("t").FromSelect(emptySel)`: one insertion mode, inner render
fails. -/
def c5errIb : InsertB := { dialect := mysqlDialect, table := "t", fromSelect := some emptySel }

/-- `Delete("t").Limit(5)` (top-level delete variant). -/
def c6del (d : Dialect) : DeleteB := { dialect := d, table := "t", limit := some 5 }

/-- `Delete("t").Limit(5)` (builder-package delete variant). -/
def c6bdel (d : Dialect) : BDeleteB := { dialect := d, table := "t", limit := some 5 }

/-- A subquery-valued condition whose embedded builder fails to render. -/
def c7sub : Cond :=
  .base "x" "=" (.vsub (.error "no table or subquery specified for FROM clause")) .subquery

/-- A select whose WHERE embeds the failing subquery condition. -/
def c7sel : SelectB := { dialect := mysqlDialect, table := "t", whereConds := [c7sub] }

/-- A select whose FROM-subquery render fails. -/
def c7fromSel : SelectB :=
  { dialect := mysqlDialect, subquery := some { result := .error "boom", asName := "p" } }

/-- A JOIN entry whose subquery render fails. -/
def c7join : Join :=
  { joinType := "INNER", table := "",
    subquery := some { result := .error "boom", asName := "o" }, condition := "a = b" }

/-- A select whose first JOIN-subquery render fails. -/
def c7joinSel : SelectB :=
  { dialect := mysqlDialect, table := "t", joins := [c7join] }

/-- An insert whose FROM-SELECT render fails. -/
def c7insErr : InsertB := { dialect := mysqlDialect, table := "t", fromSelect := some emptySel }

/-- `Delete("t")` under PostgreSQL (top-level variant, verbatim table). -/
def c8del : DeleteB := { dialect := postgresDialect, table := "t" }

/-- Select with one WHERE placeholder and a LIMIT, for the repeated-render
analysis. -/
def w9sel : SelectB :=
  { dialect := postgresDialect, columns := ["id"], table := "t",
    whereConds := [qEq "x" (.vint 5)], limit := some 10 }

/-- `Insert("t")` receiver for `Values` pre-processing. -/
def c10ib : InsertB := { dialect := mysqlDialect, table := "t" }

/-- `exOk r` is `true` when the render result is a success. -/
def exOk {α : Type} : Except String α → Bool
  | .ok _ => true
  | .error _ => false

/-- The arity side condition of `validateInsert`: vacuous without a column
list, otherwise every row must match the column count. -/
def arityOk (ib : InsertB) : Bool :=
  decide (ib.columns.length = 0) || ib.values.all (fun row => row.length = ib.columns.length)

/-- `true` when the FROM-SELECT builder, if any, renders successfully. -/
def fromSelectOk (ib : InsertB) : Bool :=
  match ib.fromSelect with
  | none => true
  | some s => exOk (selectToSQL s).1

/-- `true` when a join's render step succeeds. -/
def joinOk (j : Join) : Bool := exOk (joinClause j)

/-! ## Theorems -/

/-! ### Chunk stream lemmas -/

theorem renderChunks_append (d : Dialect) (a b : List Chunk) :
    renderChunks d (a ++ b) = renderChunks d a ++ renderChunks d b := by
  induction a with
  | nil => simp [renderChunks, String.empty_append]
  | cons c cs ih => simp [renderChunks, ih, String.append_assoc]

theorem phList_append (a b : List Chunk) :
    phList (a ++ b) = phList a ++ phList b := by
  induction a with
  | nil => simp [phList]
  | cons c cs ih => cases c <;> simp [phList, ih]

theorem renderChunks_chunkJoin (d : Dialect) (sep : String) (l : List (List Chunk)) :
    renderChunks d (chunkJoin sep l) = goJoin sep (l.map (renderChunks d)) := by
  induction l with
  | nil => rfl
  | cons x xs ih =>
    cases xs with
    | nil => simp [chunkJoin, goJoin]
    | cons y ys =>
      simp only [chunkJoin, goJoin, List.map_cons, renderChunks_append, renderChunks,
        Chunk.render, String.append_assoc] at *
      rw [ih]

theorem phList_chunkJoin (sep : String) (l : List (List Chunk)) :
    phList (chunkJoin sep l) = (l.map phList).flatten := by
  induction l with
  | nil => rfl
  | cons x xs ih =>
    cases xs with
    | nil => simp [chunkJoin, phList]
    | cons y ys =>
      simp only [chunkJoin, List.map_cons, phList_append, phList, List.flatten_cons] at *
      rw [ih]

theorem range'_add_append (a m n : Nat) :
    List.range' a m ++ List.range' (a + m) n = List.range' a (m + n) :=
  (List.range'_append_1 a m n).trans (by rw [Nat.add_comm])

mutual

theorem cond_chunks_spec (c : Cond) (d : Dialect) (p : Nat) :
    (c.toSQL d p).1 = renderChunks d (c.chunks d p).1 ∧
    (c.chunks d p).2.1 = (c.toSQL d p).2.1 ∧
    (c.chunks d p).2.2 = (c.toSQL d p).2.2 ∧
    p ≤ (c.toSQL d p).2.2 ∧
    phList (c.chunks d p).1 = List.range' p ((c.toSQL d p).2.2 - p) := by
  match c with
  | .base column operator value valueType =>
    simp only [Cond.toSQL, Cond.chunks]
    by_cases hop : operator = "IS NULL" ∨ operator = "IS NOT NULL"
    · simp [hop, renderChunks, Chunk.render, phList, String.append_empty]
    · cases valueType <;>
        simp [hop, renderChunks, Chunk.render, phList, String.append_empty,
          String.append_assoc, List.range'_one]
  | .between column lo hi =>
    simp [Cond.toSQL, Cond.chunks, renderChunks, Chunk.render, phList,
      String.append_empty, String.append_assoc, List.range']
  | .logical operator conditions =>
    simp only [Cond.toSQL, Cond.chunks]
    by_cases hlen : conditions.length = 0
    · simp [hlen, renderChunks, phList]
    · simp only [hlen, if_false]
      obtain ⟨h1, h2, h3, h4, h5⟩ := condList_chunks_spec conditions d p
      have hlen2 : (condListChunks conditions d p).1.length = (condListSQL conditions d p).1.length := by
        rw [h1, List.length_map]
      by_cases hgt : (condListSQL conditions d p).1.length > 1
      · simp only [hgt, if_true, hlen2]
        refine ⟨?_, h2, h3, h4, ?_⟩
        · rw [renderChunks, Chunk.render, renderChunks_append, renderChunks_chunkJoin, ← h1,
            renderChunks, Chunk.render, renderChunks, String.append_empty, String.append_assoc]
        · rw [phList, phList_append, phList_chunkJoin, h5]
          simp [phList]
      · simp only [hgt, if_false, hlen2]
        exact ⟨by rw [renderChunks_chunkJoin, ← h1], h2, h3, h4,
          by rw [phList_chunkJoin, h5]⟩

theorem condList_chunks_spec (cs : List Cond) (d : Dialect) (p : Nat) :
    (condListSQL cs d p).1 = (condListChunks cs d p).1.map (renderChunks d) ∧
    (condListChunks cs d p).2.1 = (condListSQL cs d p).2.1 ∧
    (condListChunks cs d p).2.2 = (condListSQL cs d p).2.2 ∧
    p ≤ (condListSQL cs d p).2.2 ∧
    ((condListChunks cs d p).1.map phList).flatten =
      List.range' p ((condListSQL cs d p).2.2 - p) := by
  match cs with
  | [] => simp [condListSQL, condListChunks, List.range']
  | c :: rest =>
    obtain ⟨a1, a2, a3, a4, a5⟩ := cond_chunks_spec c d p
    obtain ⟨b1, b2, b3, b4, b5⟩ := condList_chunks_spec rest d (c.toSQL d p).2.2
    simp only [condListSQL, condListChunks, a3]
    refine ⟨by simp [a1, b1], by simp [a2, b2], b3, Nat.le_trans a4 b4, ?_⟩
    simp only [List.map_cons, List.flatten_cons]
    rw [a5, b5]
    have h := range'_add_append p ((c.toSQL d p).2.2 - p)
      ((condListSQL rest d (c.toSQL d p).2.2).2.2 - (c.toSQL d p).2.2)
    rw [Nat.add_sub_cancel' a4] at h
    rw [h]
    congr 1
    omega

end

mutual

theorem cond_noSub_args (c : Cond) (d : Dialect) (p : Nat) (h : c.noSub = true) :
    (c.toSQL d p).2.1.length = (c.toSQL d p).2.2 - p := by
  match c with
  | .base column operator value valueType =>
    simp only [Cond.noSub] at h
    simp only [Cond.toSQL]
    by_cases hop : operator = "IS NULL" ∨ operator = "IS NOT NULL"
    · simp [hop]
    · cases valueType with
      | value => simp [hop]
      | column => simp [hop]
      | subquery => simp at h
  | .between column lo hi => simp [Cond.toSQL]
  | .logical operator conditions =>
    simp only [Cond.noSub] at h
    simp only [Cond.toSQL]
    by_cases hlen : conditions.length = 0
    · simp [hlen]
    · simp only [hlen, if_false]
      have := condList_noSub_args conditions d p h
      by_cases hgt : (condListSQL conditions d p).1.length > 1 <;> simp [hgt, this]

theorem condList_noSub_args (cs : List Cond) (d : Dialect) (p : Nat)
    (h : condListNoSub cs = true) :
    (condListSQL cs d p).2.1.length = (condListSQL cs d p).2.2 - p := by
  match cs with
  | [] => simp [condListSQL]
  | c :: rest =>
    simp only [condListNoSub, Bool.and_eq_true] at h
    have a1 := cond_noSub_args c d p h.1
    have a4 := (cond_chunks_spec c d p).2.2.2.1
    have b1 := condList_noSub_args rest d (c.toSQL d p).2.2 h.2
    have b4 := (condList_chunks_spec rest d (c.toSQL d p).2.2).2.2.2.1
    simp only [condListSQL, List.length_append]
    omega

end

theorem SameShape.append {a b c e : List Chunk} (h1 : SameShape a b) (h2 : SameShape c e) :
    SameShape (a ++ c) (b ++ e) := by
  induction h1 with
  | nil => simpa using h2
  | lit s h ih => exact .lit s ih
  | ph m n h ih => exact .ph m n ih

theorem SameShape.chunkJoin {l1 l2 : List (List Chunk)} (sep : String)
    (h : List.Forall₂ SameShape l1 l2) :
    SameShape (chunkJoin sep l1) (chunkJoin sep l2) := by
  induction h with
  | nil => exact .nil
  | @cons x y xs ys hxy htail ih =>
    cases htail with
    | nil => simpa [chunkJoin] using hxy
    | cons h1 h2 => exact hxy.append (.lit sep ih)

theorem SameShape.phList_length {a b : List Chunk} (h : SameShape a b) :
    (phList a).length = (phList b).length := by
  induction h with
  | nil => rfl
  | lit s h ih => simpa [phList] using ih
  | ph m n h ih => simpa [phList] using ih

mutual

theorem cond_chunks_shape (c : Cond) (d : Dialect) (n m : Nat) :
    SameShape (c.chunks d n).1 (c.chunks d m).1 := by
  match c with
  | .base column operator value valueType =>
    simp only [Cond.chunks]
    by_cases hop : operator = "IS NULL" ∨ operator = "IS NOT NULL"
    · simp only [hop, if_true]
      exact .lit _ .nil
    · cases valueType with
      | value => simp only [hop, if_false]; exact .lit _ (.ph n m .nil)
      | column => simp only [hop, if_false]; exact .lit _ .nil
      | subquery => simp only [hop, if_false]; exact .lit _ .nil
  | .between column lo hi =>
    simp only [Cond.chunks]
    exact .lit _ (.ph n m (.lit _ (.ph (n + 1) (m + 1) .nil)))
  | .logical operator conditions =>
    simp only [Cond.chunks]
    by_cases hlen : conditions.length = 0
    · simp only [hlen, if_true]; exact .nil
    · simp only [hlen, if_false]
      have hf := condList_chunks_shape conditions d n m
      have hl : (condListChunks conditions d n).1.length =
          (condListChunks conditions d m).1.length := hf.length_eq
      by_cases hgt : (condListChunks conditions d n).1.length > 1
      · rw [if_pos hgt, if_pos (hl ▸ hgt)]
        exact .lit "(" ((SameShape.chunkJoin _ hf).append (.lit ")" .nil))
      · rw [if_neg hgt, if_neg (hl ▸ hgt)]
        exact SameShape.chunkJoin _ hf

theorem condList_chunks_shape (cs : List Cond) (d : Dialect) (n m : Nat) :
    List.Forall₂ SameShape (condListChunks cs d n).1 (condListChunks cs d m).1 := by
  match cs with
  | [] => simp [condListChunks]
  | c :: rest =>
    simp only [condListChunks]
    exact List.Forall₂.cons (cond_chunks_shape c d n m)
      (condList_chunks_shape rest d (c.chunks d n).2.2 (c.chunks d m).2.2)

end

/-! ### Facts about the decimal rendering -/

theorem valueOfRev_natDigitsRevAux :
    ∀ fuel n, n ≤ fuel → valueOfRev (natDigitsRevAux fuel n) = n := by
  intro fuel
  induction fuel with
  | zero =>
    intro n hn
    interval_cases n
    simp [natDigitsRevAux, valueOfRev]
  | succ f ih =>
    intro n hn
    by_cases h10 : n < 10
    · simp [natDigitsRevAux, h10, valueOfRev]
    · have hdiv : n / 10 ≤ f := by
        have : n / 10 < n := Nat.div_lt_self (by omega) (by omega)
        omega
      simp only [natDigitsRevAux, h10, if_false, valueOfRev, ih _ hdiv]
      omega

theorem valueOfRev_natDigitsRev (n : Nat) : valueOfRev (natDigitsRev n) = n :=
  valueOfRev_natDigitsRevAux n n (Nat.le_refl n)

theorem natDigitsRevAux_lt_10 :
    ∀ fuel n, n ≤ fuel → ∀ d ∈ natDigitsRevAux fuel n, d < 10 := by
  intro fuel
  induction fuel with
  | zero =>
    intro n hn d hd
    simp [natDigitsRevAux] at hd
    omega
  | succ f ih =>
    intro n hn d hd
    by_cases h10 : n < 10
    · simp [natDigitsRevAux, h10] at hd
      omega
    · have hdiv : n / 10 ≤ f := by
        have : n / 10 < n := Nat.div_lt_self (by omega) (by omega)
        omega
      simp only [natDigitsRevAux, h10, if_false, List.mem_cons] at hd
      rcases hd with h | h
      · omega
      · exact ih _ hdiv d h

theorem digitChar_inj (a b : Nat) (ha : a < 10) (hb : b < 10)
    (h : digitChar a = digitChar b) : a = b := by
  interval_cases a <;> interval_cases b <;> revert h <;> decide

theorem map_digitChar_inj :
    ∀ xs ys : List Nat, (∀ d ∈ xs, d < 10) → (∀ d ∈ ys, d < 10) →
      xs.map digitChar = ys.map digitChar → xs = ys := by
  intro xs
  induction xs with
  | nil =>
    intro ys _ _ h
    cases ys with
    | nil => rfl
    | cons y ys => simp at h
  | cons x xs ih =>
    intro ys hx hy h
    cases ys with
    | nil => simp at h
    | cons y ys =>
      simp only [List.map_cons, List.cons.injEq] at h
      have hxy : x = y :=
        digitChar_inj x y (hx x (by simp)) (hy y (by simp)) h.1
      have := ih ys (fun d hd => hx d (by simp [hd])) (fun d hd => hy d (by simp [hd])) h.2
      rw [hxy, this]

theorem natToDec_inj : ∀ a b : Nat, natToDec a = natToDec b → a = b := by
  intro a b h
  have hdata : (natDigitsRev a).reverse.map digitChar = (natDigitsRev b).reverse.map digitChar :=
    congrArg String.data h
  have h2 := map_digitChar_inj (natDigitsRev a).reverse (natDigitsRev b).reverse
    (fun d hd => natDigitsRevAux_lt_10 a a (Nat.le_refl a) d (List.mem_reverse.mp hd))
    (fun d hd => natDigitsRevAux_lt_10 b b (Nat.le_refl b) d (List.mem_reverse.mp hd)) hdata
  have h3 : natDigitsRev a = natDigitsRev b := by
    have := congrArg List.reverse h2
    simpa using this
  have := congrArg valueOfRev h3
  rwa [valueOfRev_natDigitsRev, valueOfRev_natDigitsRev] at this

theorem natDigitsRevAux_fuel_eq :
    ∀ f1 f2 n, n ≤ f1 → n ≤ f2 → natDigitsRevAux f1 n = natDigitsRevAux f2 n := by
  intro f1
  induction f1 with
  | zero =>
    intro f2 n h1 h2
    interval_cases n
    cases f2 <;> simp [natDigitsRevAux]
  | succ f ih =>
    intro f2 n h1 h2
    by_cases h10 : n < 10
    · cases f2 <;> simp [natDigitsRevAux, h10]
      · omega
    · have hdiv : n / 10 < n := Nat.div_lt_self (by omega) (by omega)
      cases f2 with
      | zero => omega
      | succ g =>
        simp only [natDigitsRevAux, h10, if_false]
        rw [ih g (n / 10) (by omega) (by omega)]

theorem natDigitsRev_step (n : Nat) (h : ¬n < 10) :
    natDigitsRev n = n % 10 :: natDigitsRev (n / 10) := by
  obtain ⟨k, rfl⟩ : ∃ k, n = k + 1 := ⟨n - 1, by omega⟩
  have hdiv : (k + 1) / 10 ≤ k := by
    have : (k + 1) / 10 < k + 1 := Nat.div_lt_self (by omega) (by omega)
    omega
  simp only [natDigitsRev, natDigitsRevAux, if_neg h]
  rw [natDigitsRevAux_fuel_eq k ((k + 1) / 10) ((k + 1) / 10) hdiv (Nat.le_refl _)]

theorem natDigitsRev_small (n : Nat) (h : n < 10) : natDigitsRev n = [n] := by
  cases n with
  | zero => simp [natDigitsRev, natDigitsRevAux]
  | succ k => simp [natDigitsRev, natDigitsRevAux, h]

theorem natDigitsRev_len_mono : ∀ m n : Nat, n ≤ m →
    (natDigitsRev n).length ≤ (natDigitsRev m).length := by
  intro m
  induction m using Nat.strong_induction_on with
  | _ m ih =>
    intro n hnm
    by_cases hm : m < 10
    · rw [natDigitsRev_small n (by omega), natDigitsRev_small m hm]
      simp
    · rw [natDigitsRev_step m hm]
      by_cases hn : n < 10
      · rw [natDigitsRev_small n hn]
        simp
      · rw [natDigitsRev_step n hn]
        simp only [List.length_cons, Nat.add_le_add_iff_right]
        exact ih (m / 10) (Nat.div_lt_self (by omega) (by omega))
          (n / 10) (Nat.div_le_div_right hnm)

theorem natToDec_length (n : Nat) : (natToDec n).length = (natDigitsRev n).length := by
  simp [natToDec]

theorem natToDec_len_mono {n m : Nat} (h : n ≤ m) :
    (natToDec n).length ≤ (natToDec m).length := by
  rw [natToDec_length, natToDec_length]
  exact natDigitsRev_len_mono m n h

/-! ### Render inequality for shifted placeholder runs (numbered dialects) -/

theorem range'_forall2_le (a b k : Nat) (h : a ≤ b) :
    List.Forall₂ (· ≤ ·) (List.range' a k) (List.range' b k) := by
  induction k generalizing a b with
  | zero => simp [List.range']
  | succ k ih =>
    rw [List.range'_succ, List.range'_succ]
    exact List.Forall₂.cons h (ih (a + 1) (b + 1) (by omega))

theorem string_length_data (s : String) : s.length = s.data.length := rfl

theorem renderChunks_len_le (d : Dialect) (pfx : String)
    (hd : ∀ i, d.placeholder i = pfx ++ natToDec (i + 1)) :
    ∀ {cs ds : List Chunk}, SameShape cs ds →
      List.Forall₂ (· ≤ ·) (phList cs) (phList ds) →
      (renderChunks d cs).length ≤ (renderChunks d ds).length := by
  intro cs ds hs
  induction hs with
  | nil => intro _; exact Nat.le_refl _
  | lit s h ih =>
    intro hle
    simp only [phList] at hle
    simp only [renderChunks, Chunk.render, String.length_append]
    exact Nat.add_le_add_left (ih hle) _
  | ph m n h ih =>
    intro hle
    simp only [phList] at hle
    cases hle with
    | cons hmn htail =>
      simp only [renderChunks, Chunk.render, String.length_append, hd]
      have h1 : (natToDec (m + 1)).length ≤ (natToDec (n + 1)).length :=
        natToDec_len_mono (by omega)
      have h2 := ih htail
      omega

theorem string_append_left_cancel {s r1 r2 : String} (h : s ++ r1 = s ++ r2) : r1 = r2 := by
  have hd : s.data ++ r1.data = s.data ++ r2.data := by
    rw [← String.data_append, ← String.data_append, h]
  exact String.ext (List.append_cancel_left hd)

theorem renderChunks_ne_of_shift (d : Dialect) (pfx : String)
    (hd : ∀ i, d.placeholder i = pfx ++ natToDec (i + 1)) :
    ∀ {cs ds : List Chunk}, SameShape cs ds →
      ∀ {a b k : Nat}, phList cs = List.range' a k → phList ds = List.range' b k →
      a < b → 0 < k → renderChunks d cs ≠ renderChunks d ds := by
  intro cs ds hs
  induction hs with
  | nil =>
    intro a b k hpc hpd hab hk
    simp only [phList] at hpc
    have : (List.range' a k).length = 0 := by rw [← hpc]; rfl
    rw [List.length_range'] at this
    omega
  | lit s h ih =>
    intro a b k hpc hpd hab hk heq
    simp only [phList] at hpc hpd
    simp only [renderChunks, Chunk.render] at heq
    exact ih hpc hpd hab hk (string_append_left_cancel heq)
  | @ph m n cs' ds' h ih =>
    intro a b k hpc hpd hab hk heq
    obtain ⟨k', rfl⟩ : ∃ k', k = k' + 1 := ⟨k - 1, by omega⟩
    rw [List.range'_succ] at hpc hpd
    simp only [phList, List.cons.injEq] at hpc hpd
    obtain ⟨rfl, hpc'⟩ := hpc
    obtain ⟨rfl, hpd'⟩ := hpd
    simp only [renderChunks, Chunk.render, hd] at heq
    by_cases hlen : (natToDec (m + 1)).length = (natToDec (n + 1)).length
    · -- equal token lengths: cancel and derive m = n, contradiction
      have hdata := congrArg String.data heq
      simp only [String.data_append] at hdata
      rw [List.append_assoc, List.append_assoc] at hdata
      have h1 := List.append_cancel_left hdata
      have h2 := List.append_inj h1 (by
        rw [← string_length_data (natToDec (m + 1)), ← string_length_data (natToDec (n + 1)),
          hlen])
      have h3 : natToDec (m + 1) = natToDec (n + 1) := String.ext h2.1
      have := natToDec_inj _ _ h3
      omega
    · -- strictly longer second token: total lengths differ
      have hmono : (natToDec (m + 1)).length ≤ (natToDec (n + 1)).length :=
        natToDec_len_mono (by omega)
      have hrest : (renderChunks d cs').length ≤ (renderChunks d ds').length :=
        renderChunks_len_le d pfx hd h
          (hpc' ▸ hpd' ▸ range'_forall2_le (m + 1) (n + 1) k' (by omega))
      have hlens := congrArg String.length heq
      simp only [String.length_append] at hlens
      omega

theorem renderChunks_single (d : Dialect) (s : String) :
    renderChunks d [Chunk.lit s] = s := by
  simp [renderChunks, Chunk.render, String.append_empty]

theorem condClauseChunks_where_spec (conds : List Cond) (d : Dialect) (pc : Nat) :
    (buildWhereClause conds d pc).1 = renderChunks d (condClauseChunks " WHERE " conds d pc).1 ∧
    (condClauseChunks " WHERE " conds d pc).2.1 = (buildWhereClause conds d pc).2.1 ∧
    (condClauseChunks " WHERE " conds d pc).2.2 = (buildWhereClause conds d pc).2.2 ∧
    pc ≤ (buildWhereClause conds d pc).2.2 ∧
    phList (condClauseChunks " WHERE " conds d pc).1 =
      List.range' pc ((buildWhereClause conds d pc).2.2 - pc) := by
  obtain ⟨h1, h2, h3, h4, h5⟩ := condList_chunks_spec conds d pc
  by_cases hlen : conds.length = 0
  · simp [buildWhereClause, condClauseChunks, hlen, renderChunks, phList]
  · simp only [buildWhereClause, condClauseChunks, hlen, if_false]
    refine ⟨?_, h2, h3, h4, ?_⟩
    · rw [renderChunks, Chunk.render, renderChunks_chunkJoin, ← h1]
    · rw [phList, phList_chunkJoin, h5]

theorem condClauseChunks_having_spec (conds : List Cond) (d : Dialect) (pc : Nat) :
    (buildHavingClause conds d pc).1 = renderChunks d (condClauseChunks " HAVING " conds d pc).1 ∧
    (condClauseChunks " HAVING " conds d pc).2.1 = (buildHavingClause conds d pc).2.1 ∧
    (condClauseChunks " HAVING " conds d pc).2.2 = (buildHavingClause conds d pc).2.2 ∧
    pc ≤ (buildHavingClause conds d pc).2.2 ∧
    phList (condClauseChunks " HAVING " conds d pc).1 =
      List.range' pc ((buildHavingClause conds d pc).2.2 - pc) := by
  obtain ⟨h1, h2, h3, h4, h5⟩ := condList_chunks_spec conds d pc
  by_cases hlen : conds.length = 0
  · simp [buildHavingClause, condClauseChunks, hlen, renderChunks, phList]
  · simp only [buildHavingClause, condClauseChunks, hlen, if_false]
    refine ⟨?_, h2, h3, h4, ?_⟩
    · rw [renderChunks, Chunk.render, renderChunks_chunkJoin, ← h1]
    · rw [phList, phList_chunkJoin, h5]

theorem limitChunks_spec (sb : SelectB) (pc : Nat) :
    (buildLimitClause sb pc).1 = renderChunks sb.dialect (limitChunks sb pc).1 ∧
    (limitChunks sb pc).2.1 = (buildLimitClause sb pc).2.1 ∧
    (limitChunks sb pc).2.2 = (buildLimitClause sb pc).2.2 ∧
    pc ≤ (buildLimitClause sb pc).2.2 ∧
    phList (limitChunks sb pc).1 =
      List.range' pc ((buildLimitClause sb pc).2.2 - pc) := by
  cases h : sb.limit with
  | none => simp [buildLimitClause, limitChunks, h, renderChunks, phList]
  | some v =>
    simp [buildLimitClause, limitChunks, h, renderChunks, phList, Chunk.render,
      String.append_empty, List.range'_one]

theorem offsetChunks_spec (sb : SelectB) (pc : Nat) :
    (buildOffsetClause sb pc).1 = renderChunks sb.dialect (offsetChunks sb pc).1 ∧
    (offsetChunks sb pc).2.1 = (buildOffsetClause sb pc).2.1 ∧
    (offsetChunks sb pc).2.2 = (buildOffsetClause sb pc).2.2 ∧
    pc ≤ (buildOffsetClause sb pc).2.2 ∧
    phList (offsetChunks sb pc).1 =
      List.range' pc ((buildOffsetClause sb pc).2.2 - pc) := by
  cases h : sb.offset with
  | none => simp [buildOffsetClause, offsetChunks, h, renderChunks, phList]
  | some v =>
    simp [buildOffsetClause, offsetChunks, h, renderChunks, phList, Chunk.render,
      String.append_empty, List.range'_one]

theorem range'_glue {p a b : Nat} (h1 : p ≤ a) (h2 : a ≤ b) :
    List.range' p (a - p) ++ List.range' a (b - a) = List.range' p (b - p) := by
  have h := range'_add_append p (a - p) (b - a)
  rw [Nat.add_sub_cancel' h1] at h
  rw [h]
  congr 1
  omega

theorem selectToSQL_chunks (sb : SelectB) (sql : String) (args : List Val)
    (sb2 : SelectB) (h : selectToSQL sb = (.ok (sql, args), sb2)) :
    sql = renderChunks sb.dialect (selChunksOf sb) ∧
    phList (selChunksOf sb) =
      List.range' sb.paramCount (sb2.paramCount - sb.paramCount) ∧
    sb.paramCount ≤ sb2.paramCount := by
  obtain ⟨w1, w2, w3, w4, w5⟩ :=
    condClauseChunks_where_spec sb.whereConds sb.dialect sb.paramCount
  obtain ⟨h1, h2, h3, h4, h5⟩ :=
    condClauseChunks_having_spec sb.having sb.dialect
      (buildWhereClause sb.whereConds sb.dialect sb.paramCount).2.2
  obtain ⟨l1, l2, l3, l4, l5⟩ :=
    limitChunks_spec sb (buildHavingClause sb.having sb.dialect
      (buildWhereClause sb.whereConds sb.dialect sb.paramCount).2.2).2.2
  obtain ⟨f1, f2, f3, f4, f5⟩ :=
    offsetChunks_spec sb (buildLimitClause sb
      (buildHavingClause sb.having sb.dialect
        (buildWhereClause sb.whereConds sb.dialect sb.paramCount).2.2).2.2).2.2
  by_cases hguard : sb.table = "" ∧ sb.subquery.isNone
  · simp [selectToSQL, hguard] at h
  · cases hfrom : buildFromClause sb with
    | error e =>
      rw [selectToSQL.eq_def, if_neg hguard, hfrom] at h
      exact absurd (congrArg Prod.fst h) (by simp)
    | ok fr =>
      cases hjoin : buildJoinClauses sb.joins with
      | error e =>
        rw [selectToSQL.eq_def, if_neg hguard, hfrom, hjoin] at h
        exact absurd (congrArg Prod.fst h) (by simp)
      | ok jr =>
        rw [selectToSQL.eq_def, if_neg hguard, hfrom, hjoin] at h
        obtain ⟨fr1, fr2⟩ := fr
        obtain ⟨jr1, jr2⟩ := jr
        simp only [Prod.mk.injEq, Except.ok.injEq] at h
        obtain ⟨⟨hsql, hargs⟩, hstate⟩ := h
        have hfr : fromStrOf sb = fr1 := by simp [fromStrOf, hfrom]
        have hjr : joinStrOf sb = jr1 := by simp [joinStrOf, hjoin]
        have hpc2 : sb2.paramCount =
            (buildOffsetClause sb (buildLimitClause sb
              (buildHavingClause sb.having sb.dialect
                (buildWhereClause sb.whereConds sb.dialect sb.paramCount).2.2).2.2).2.2).2.2 := by
          rw [← hstate]
        refine ⟨?_, ?_, ?_⟩
        · rw [← hsql]
          simp only [selChunksOf, renderChunks_append, renderChunks, Chunk.render, w3, h3, l3,
            hfr, hjr]
          rw [← w1, ← h1, ← l1, ← f1]
          simp only [String.append_assoc, String.empty_append, String.append_empty]
        · simp only [selChunksOf, phList_append, phList, w3, h3, l3]
          rw [w5, h5, l5, f5, hpc2]
          simp only [List.append_nil, List.nil_append, ← List.append_assoc]
          rw [range'_glue w4 h4, range'_glue (Nat.le_trans w4 h4) l4,
            range'_glue (Nat.le_trans (Nat.le_trans w4 h4) l4) f4]
        · rw [hpc2]
          omega

theorem condClauseChunks_shape (kw : String) (conds : List Cond) (d : Dialect) (n m : Nat) :
    SameShape (condClauseChunks kw conds d n).1 (condClauseChunks kw conds d m).1 := by
  by_cases hlen : conds.length = 0
  · simp only [condClauseChunks, hlen, if_true]
    exact .nil
  · simp only [condClauseChunks, hlen, if_false]
    exact .lit kw (SameShape.chunkJoin " AND " (condList_chunks_shape conds d n m))

theorem limitChunks_shape (sb : SelectB) (lim : Option Int) (n m : Nat) :
    SameShape (limitChunks { sb with limit := lim } n).1
      (limitChunks { sb with limit := lim } m).1 := by
  cases lim with
  | none => exact .nil
  | some v => exact .lit _ (.ph n m .nil)

theorem offsetChunks_shape (sb : SelectB) (off : Option Int) (n m : Nat) :
    SameShape (offsetChunks { sb with offset := off } n).1
      (offsetChunks { sb with offset := off } m).1 := by
  cases off with
  | none => exact .nil
  | some v => exact .lit _ (.ph n m .nil)

theorem selChunksOf_shape (sb : SelectB) (n m : Nat) :
    SameShape (selChunksOf { sb with paramCount := n })
      (selChunksOf { sb with paramCount := m }) := by
  simp only [selChunksOf]
  refine .lit _ (.lit _ (.lit _ ?_))
  refine SameShape.append (condClauseChunks_shape _ _ _ _ _) (.lit _ ?_)
  refine SameShape.append (condClauseChunks_shape _ _ _ _ _) (.lit _ ?_)
  refine SameShape.append ?_ ?_
  · cases hv : sb.limit with
    | none => exact .nil
    | some v => exact .lit _ (.ph _ _ .nil)
  · cases hv : sb.offset with
    | none => exact .nil
    | some v => exact .lit _ (.ph _ _ .nil)

theorem selectToSQL_state (sb : SelectB) :
    (selectToSQL sb).2 = { sb with paramCount := (selectToSQL sb).2.paramCount } := by
  by_cases hguard : sb.table = "" ∧ sb.subquery.isNone
  · rw [selectToSQL.eq_def, if_pos hguard]
  · rw [selectToSQL.eq_def, if_neg hguard]
    cases hfrom : buildFromClause sb with
    | error e => simp
    | ok fr =>
      cases hjoin : buildJoinClauses sb.joins with
      | error e => simp
      | ok jr => simp

theorem select_double_render (sb : SelectB) (pfx : String)
    (hd : ∀ i, sb.dialect.placeholder i = pfx ++ natToDec (i + 1))
    (sql1 sql2 : String) (args1 args2 : List Val) (sb1 sb2 : SelectB)
    (h1 : selectToSQL sb = (.ok (sql1, args1), sb1))
    (h2 : selectToSQL sb1 = (.ok (sql2, args2), sb2))
    (hconsume : sb.paramCount < sb1.paramCount) :
    sql1 ≠ sql2 := by
  obtain ⟨c1a, c1b, c1c⟩ := selectToSQL_chunks sb sql1 args1 sb1 h1
  obtain ⟨c2a, c2b, c2c⟩ := selectToSQL_chunks sb1 sql2 args2 sb2 h2
  have hsb1 : sb1 = { sb with paramCount := sb1.paramCount } := by
    have := selectToSQL_state sb
    rw [h1] at this
    exact this
  have hdia : sb1.dialect = sb.dialect := by rw [hsb1]
  have hsbeta : sb = { sb with paramCount := sb.paramCount } := rfl
  have hshape : SameShape (selChunksOf sb) (selChunksOf sb1) := by
    rw [hsb1, hsbeta]
    exact selChunksOf_shape sb sb.paramCount sb1.paramCount
  have hk2 : sb2.paramCount - sb1.paramCount = sb1.paramCount - sb.paramCount := by
    have hlen := hshape.phList_length
    rw [c1b, c2b] at hlen
    rw [List.length_range', List.length_range'] at hlen
    omega
  rw [c1a, c2a, hdia]
  refine renderChunks_ne_of_shift sb.dialect pfx hd hshape c1b ?_ hconsume (by omega)
  rw [c2b, hk2]

theorem setsChunks_spec (d : Dialect) (sets : List SetClause) (pc : Nat) :
    (setsRender d sets pc).1 = (setsChunks d sets pc).1.map (renderChunks d) ∧
    (setsChunks d sets pc).2.1 = (setsRender d sets pc).2.1 ∧
    (setsChunks d sets pc).2.2 = (setsRender d sets pc).2.2 ∧
    pc ≤ (setsRender d sets pc).2.2 ∧
    ((setsChunks d sets pc).1.map phList).flatten =
      List.range' pc ((setsRender d sets pc).2.2 - pc) := by
  induction sets generalizing pc with
  | nil => simp [setsRender, setsChunks, List.range']
  | cons s rest ih =>
    cases hr : s.isRaw with
    | true =>
      obtain ⟨a1, a2, a3, a4, a5⟩ := ih pc
      simp only [setsRender, setsChunks, hr, if_true, List.map_cons, List.flatten_cons]
      refine ⟨?_, a2, a3, a4, ?_⟩
      · rw [a1, renderChunks_single]
      · simp only [phList, List.nil_append]
        exact a5
    | false =>
      obtain ⟨a1, a2, a3, a4, a5⟩ := ih (pc + 1)
      simp only [setsRender, setsChunks, hr, Bool.false_eq_true, if_false, List.map_cons,
        List.flatten_cons]
      refine ⟨?_, by rw [a2], a3, by omega, ?_⟩
      · rw [a1]
        simp [renderChunks, Chunk.render, String.append_assoc, String.append_empty]
      · simp only [phList]
        rw [a5]
        have h := range'_add_append pc 1 ((setsRender d rest (pc + 1)).2.2 - (pc + 1))
        simp only [List.range'_one] at h
        have hcount : (setsRender d rest (pc + 1)).2.2 - pc =
            1 + ((setsRender d rest (pc + 1)).2.2 - (pc + 1)) := by omega
        rw [hcount]
        exact h

theorem limitChunksU_spec (u : UpdateB) (pc : Nat) :
    (buildLimitClauseU u pc).1 = renderChunks u.dialect (limitChunksU u pc).1 ∧
    (limitChunksU u pc).2.1 = (buildLimitClauseU u pc).2.1 ∧
    (limitChunksU u pc).2.2 = (buildLimitClauseU u pc).2.2 ∧
    pc ≤ (buildLimitClauseU u pc).2.2 ∧
    phList (limitChunksU u pc).1 =
      List.range' pc ((buildLimitClauseU u pc).2.2 - pc) := by
  cases hv : u.limit with
  | none => simp [buildLimitClauseU, limitChunksU, hv, renderChunks, phList]
  | some v =>
    cases hk : u.dialect.kind <;>
      simp [buildLimitClauseU, limitChunksU, hv, hk, renderChunks, phList, Chunk.render,
        String.append_empty, List.range'_one]

theorem updateToSQL_chunks (u : UpdateB) (sql : String) (args : List Val)
    (u2 : UpdateB) (h : updateToSQL u = (.ok (sql, args), u2)) :
    sql = renderChunks u.dialect (updChunksOf u) ∧
    phList (updChunksOf u) =
      List.range' u.paramCount (u2.paramCount - u.paramCount) ∧
    u.paramCount ≤ u2.paramCount := by
  obtain ⟨s1, s2, s3, s4, s5⟩ := setsChunks_spec u.dialect u.sets u.paramCount
  have hst1 : (buildSetClause u u.paramCount).1 =
      " SET " ++ goJoin ", " (setsRender u.dialect u.sets u.paramCount).1 := rfl
  have hst21 : (buildSetClause u u.paramCount).2.1 =
      (setsRender u.dialect u.sets u.paramCount).2.1 := rfl
  have hst22 : (buildSetClause u u.paramCount).2.2 =
      (setsRender u.dialect u.sets u.paramCount).2.2 := rfl
  have hwu : ∀ pc, buildWhereClauseU u pc = buildWhereClause u.whereConds u.dialect pc :=
    fun pc => rfl
  obtain ⟨w1, w2, w3, w4, w5⟩ :=
    condClauseChunks_where_spec u.whereConds u.dialect
      (setsRender u.dialect u.sets u.paramCount).2.2
  obtain ⟨l1, l2, l3, l4, l5⟩ :=
    limitChunksU_spec u (buildWhereClause u.whereConds u.dialect
      (setsRender u.dialect u.sets u.paramCount).2.2).2.2
  by_cases ht : u.table = ""
  · simp [updateToSQL, ht] at h
  · by_cases hs : u.sets.length = 0
    · rw [updateToSQL.eq_def, if_neg ht, if_pos hs] at h
      exact absurd (congrArg Prod.fst h) (by simp)
    · rw [updateToSQL.eq_def, if_neg ht, if_neg hs] at h
      simp only [Prod.mk.injEq, Except.ok.injEq, hwu, hst1, hst21, hst22] at h
      obtain ⟨⟨hsql, hargs⟩, hstate⟩ := h
      have hpc2 : u2.paramCount =
          (buildLimitClauseU u (buildWhereClause u.whereConds u.dialect
            (setsRender u.dialect u.sets u.paramCount).2.2).2.2).2.2 := by
        rw [← hstate]
      refine ⟨?_, ?_, ?_⟩
      · rw [← hsql]
        simp only [updChunksOf, renderChunks_append, renderChunks, Chunk.render, s3,
          renderChunks_chunkJoin, w3]
        rw [← s1, ← w1, ← l1]
        simp only [String.append_assoc, String.empty_append, String.append_empty]
      · simp only [updChunksOf, phList_append, phList, s3, phList_chunkJoin, w3]
        rw [s5, w5, l5, hpc2]
        simp only [List.append_nil, List.nil_append, ← List.append_assoc]
        rw [range'_glue s4 w4, range'_glue (Nat.le_trans s4 w4) l4]
      · rw [hpc2]
        omega

theorem setsChunks_shape (d : Dialect) (sets : List SetClause) (n m : Nat) :
    List.Forall₂ SameShape (setsChunks d sets n).1 (setsChunks d sets m).1 := by
  induction sets generalizing n m with
  | nil => simp [setsChunks]
  | cons s rest ih =>
    cases hr : s.isRaw with
    | true =>
      simp only [setsChunks, hr, if_true]
      exact List.Forall₂.cons (.lit _ .nil) (ih n m)
    | false =>
      simp only [setsChunks, hr, Bool.false_eq_true, if_false]
      exact List.Forall₂.cons (.lit _ (.ph n m .nil)) (ih (n + 1) (m + 1))

theorem limitChunksU_shape (u v : UpdateB) (hl : u.limit = v.limit)
    (hk : u.dialect.kind = v.dialect.kind) (n m : Nat) :
    SameShape (limitChunksU u n).1 (limitChunksU v m).1 := by
  rw [limitChunksU.eq_def, limitChunksU.eq_def, ← hl, ← hk]
  cases u.limit with
  | none => exact .nil
  | some w =>
    cases u.dialect.kind <;> first
      | exact .nil
      | exact .lit _ (.ph _ _ .nil)

theorem updChunksOf_shape (u : UpdateB) (n m : Nat) :
    SameShape (updChunksOf { u with paramCount := n })
      (updChunksOf { u with paramCount := m }) := by
  simp only [updChunksOf]
  refine .lit _ (.lit _ ?_)
  refine SameShape.append (SameShape.chunkJoin ", " (setsChunks_shape _ _ _ _)) ?_
  refine SameShape.append (condClauseChunks_shape _ _ _ _ _) (.lit _ ?_)
  exact SameShape.append (limitChunksU_shape _ _ rfl rfl _ _) (.lit _ .nil)

theorem updateToSQL_state (u : UpdateB) :
    (updateToSQL u).2 = { u with paramCount := (updateToSQL u).2.paramCount } := by
  by_cases ht : u.table = ""
  · rw [updateToSQL.eq_def, if_pos ht]
  · by_cases hs : u.sets.length = 0
    · rw [updateToSQL.eq_def, if_neg ht, if_pos hs]
    · rw [updateToSQL.eq_def, if_neg ht, if_neg hs]

theorem update_double_render (u : UpdateB) (pfx : String)
    (hd : ∀ i, u.dialect.placeholder i = pfx ++ natToDec (i + 1))
    (sql1 sql2 : String) (args1 args2 : List Val) (u1 u2 : UpdateB)
    (h1 : updateToSQL u = (.ok (sql1, args1), u1))
    (h2 : updateToSQL u1 = (.ok (sql2, args2), u2))
    (hconsume : u.paramCount < u1.paramCount) :
    sql1 ≠ sql2 := by
  obtain ⟨c1a, c1b, c1c⟩ := updateToSQL_chunks u sql1 args1 u1 h1
  obtain ⟨c2a, c2b, c2c⟩ := updateToSQL_chunks u1 sql2 args2 u2 h2
  have hu1 : u1 = { u with paramCount := u1.paramCount } := by
    have := updateToSQL_state u
    rw [h1] at this
    exact this
  have hdia : u1.dialect = u.dialect := by rw [hu1]
  have hueta : u = { u with paramCount := u.paramCount } := rfl
  have hshape : SameShape (updChunksOf u) (updChunksOf u1) := by
    rw [hu1, hueta]
    exact updChunksOf_shape u u.paramCount u1.paramCount
  have hk2 : u2.paramCount - u1.paramCount = u1.paramCount - u.paramCount := by
    have hlen := hshape.phList_length
    rw [c1b, c2b] at hlen
    rw [List.length_range', List.length_range'] at hlen
    omega
  rw [c1a, c2a, hdia]
  refine renderChunks_ne_of_shift u.dialect pfx hd hshape c1b ?_ hconsume (by omega)
  rw [c2b, hk2]

theorem condListSQL_length (cs : List Cond) (d : Dialect) (p : Nat) :
    (condListSQL cs d p).1.length = cs.length := by
  induction cs generalizing p with
  | nil => simp [condListSQL]
  | cons c rest ih => simp [condListSQL, ih]

/-- C1: for every condition tree built from comparison leaves, NULL tests,
BETWEEN and AND/OR composites (no subquery leaves), rendered with any
dialect and any starting counter, the fragment decomposes into literal
pieces and placeholder emissions (`Cond.chunks`), the placeholder emissions
in left-to-right text order are exactly `argPos, argPos+1, …` — one per
returned argument, so the i-th argument corresponds to the i-th placeholder
— and the counter advances by the argument count. -/
theorem C1_condition_placeholders_align (c : Cond) (d : Dialect) (p : Nat)
    (h : c.noSub = true) :
    (c.toSQL d p).1 = renderChunks d (c.chunks d p).1 ∧
    (c.chunks d p).2.1 = (c.toSQL d p).2.1 ∧
    phList (c.chunks d p).1 = List.range' p (c.toSQL d p).2.1.length ∧
    (c.toSQL d p).2.2 = p + (c.toSQL d p).2.1.length := by
  obtain ⟨a1, a2, a3, a4, a5⟩ := cond_chunks_spec c d p
  have hlen := cond_noSub_args c d p h
  refine ⟨a1, a2, ?_, by omega⟩
  rw [a5, hlen]

/-- C1 witness: the property at `And(Eq("a",1), Between("b",2,3))` under the
PostgreSQL dialect with starting counter 0. -/
theorem C1_witness :
    (w1cond.toSQL postgresDialect 0).1 =
      renderChunks postgresDialect (w1cond.chunks postgresDialect 0).1 ∧
    (w1cond.chunks postgresDialect 0).2.1 = (w1cond.toSQL postgresDialect 0).2.1 ∧
    phList (w1cond.chunks postgresDialect 0).1 =
      List.range' 0 (w1cond.toSQL postgresDialect 0).2.1.length ∧
    (w1cond.toSQL postgresDialect 0).2.2 = 0 + (w1cond.toSQL postgresDialect 0).2.1.length :=
  C1_condition_placeholders_align w1cond postgresDialect 0
    (by simp [w1cond, Cond.noSub, condListNoSub, qAnd, qEq, qBetween])

/-- C2 counterexample: under the builder-package PostgreSQL dialect — one of
the claim's cited `Placeholder` implementations — the chain
`Select("id").From("t").Where(Eq("x", 5))` renders `$0`, not `$1`: the
token `$1` occurs zero times, refuting "contains `$1` exactly once". -/
theorem C2_counterexample :
    (selectToSQL (c2sel builderPostgresDialect)).1 =
      .ok ("SELECT id FROM t WHERE \"x\" = $0 GROUP BY ", [.vint 5]) ∧
    strCount "SELECT id FROM t WHERE \"x\" = $0 GROUP BY " "$1" = 0 := by
  constructor
  · simp [c2sel, selectToSQL, buildFromClause, buildJoinClauses, buildSelectClause,
      buildWhereClause, condListSQL, Cond.toSQL, qEq, buildGroupByClause, buildHavingClause,
      buildOrderByClause, buildLimitClause, buildOffsetClause, builderPostgresDialect,
      builderPostgresPlaceholder, escapeDQIdent, goReplaceAll, goReplaceChars,
      goReplaceCharsAux, natToDec, natDigitsRev, natDigitsRevAux, digitChar, goJoin, joinAll]
  · decide

/-- C2 (amended): under the top-level `postgresDialect` the chain yields SQL
containing `$1` exactly once with argument list `[5]`, and under either
MySQL dialect it yields `?` exactly once; under the builder-package
`postgresDialect`, `Placeholder(0)` renders `$0`, so the SQL contains `$0`
once and `$1` not at all. -/
theorem C2_single_placeholder_roundtrip :
    ((selectToSQL (c2sel postgresDialect)).1 =
      .ok ("SELECT id FROM t WHERE \"x\" = $1 GROUP BY ", [.vint 5]) ∧
     strCount "SELECT id FROM t WHERE \"x\" = $1 GROUP BY " "$1" = 1) ∧
    ((selectToSQL (c2sel mysqlDialect)).1 =
      .ok ("SELECT id FROM t WHERE `x` = ? GROUP BY ", [.vint 5]) ∧
     strCount "SELECT id FROM t WHERE `x` = ? GROUP BY " "?" = 1) ∧
    ((selectToSQL (c2sel builderMysqlDialect)).1 =
      .ok ("SELECT id FROM t WHERE `x` = ? GROUP BY ", [.vint 5]) ∧
     strCount "SELECT id FROM t WHERE `x` = ? GROUP BY " "?" = 1) ∧
    ((selectToSQL (c2sel builderPostgresDialect)).1 =
      .ok ("SELECT id FROM t WHERE \"x\" = $0 GROUP BY ", [.vint 5]) ∧
     strCount "SELECT id FROM t WHERE \"x\" = $0 GROUP BY " "$0" = 1) := by
  refine ⟨⟨?_, by decide⟩, ⟨?_, by decide⟩, ⟨?_, by decide⟩, ⟨?_, by decide⟩⟩ <;>
    simp [c2sel, selectToSQL, buildFromClause, buildJoinClauses, buildSelectClause,
      buildWhereClause, condListSQL, Cond.toSQL, qEq, buildGroupByClause, buildHavingClause,
      buildOrderByClause, buildLimitClause, buildOffsetClause, postgresDialect, mysqlDialect,
      builderPostgresDialect, builderPostgresPlaceholder, builderMysqlDialect,
      builderMysqlPlaceholder, escapeDQIdent, escapeMySQLIdent, goReplaceAll, goReplaceChars,
      goReplaceCharsAux, natToDec, natDigitsRev, natDigitsRevAux, digitChar, goJoin, joinAll]

/-- C3 counterexample: the claim fails on the builder-package dialects it
cites.  The "sequential" MySQL `Placeholder` is not constant — index 1
yields `?` but index 2 yields `?, ?` — and the "numbered" PostgreSQL
`Placeholder` renders `$0` at index 0, so its emitted text is not 1-based. -/
theorem C3_counterexample :
    builderMysqlDialect.placeholder 1 = "?" ∧
    builderMysqlDialect.placeholder 2 = "?, ?" ∧
    ("?" : String) ≠ "?, ?" ∧
    builderPostgresDialect.placeholder 0 = "$0" := by
  refine ⟨rfl, rfl, by decide, rfl⟩

/-- C3 (amended): the claimed behaviour holds for the top-level dialects:
MySQL and SQLite return the constant token `?` for every index, and
PostgreSQL, SQL Server and Oracle render prefix + decimal of `index + 1`
(1-based text for the 0-based input), a value that is strictly increasing
and injectively rendered.  The builder-package variants violate both
patterns (see the counterexample). -/
theorem C3_placeholder_styles :
    (∀ i j : Nat, mysqlDialect.placeholder i = mysqlDialect.placeholder j) ∧
    (∀ i j : Nat, sqliteDialect.placeholder i = sqliteDialect.placeholder j) ∧
    (∀ i : Nat, mysqlDialect.placeholder i = "?") ∧
    (∀ i : Nat, postgresDialect.placeholder i = "$" ++ natToDec (i + 1)) ∧
    (∀ i : Nat, sqlserverDialect.placeholder i = "@p" ++ natToDec (i + 1)) ∧
    (∀ i : Nat, oracleDialect.placeholder i = ":" ++ natToDec (i + 1)) ∧
    (∀ i j : Nat, i < j → i + 1 < j + 1) ∧
    (∀ i j : Nat, natToDec (i + 1) = natToDec (j + 1) → i = j) := by
  refine ⟨fun i j => rfl, fun i j => rfl, fun i => rfl, fun i => rfl, fun i => rfl,
    fun i => rfl, fun i j h => by omega, fun i j h => ?_⟩
  have := natToDec_inj (i + 1) (j + 1) h
  omega

/-- C3 witness: the amended properties at concrete indices. -/
theorem C3_witness :
    mysqlDialect.placeholder 0 = mysqlDialect.placeholder 7 ∧
    postgresDialect.placeholder 0 = "$" ++ natToDec 1 ∧
    0 + 1 < 3 + 1 :=
  ⟨C3_placeholder_styles.1 0 7, C3_placeholder_styles.2.2.2.1 0,
    C3_placeholder_styles.2.2.2.2.2.2.1 0 3 (by decide)⟩

/-- C4: a logical AND/OR node with two or more children renders as the
children's fragments joined in list order by the connective, wrapped in
exactly one added parenthesis pair; with exactly one child the node's
output coincides with the child's output (no parentheses added). -/
theorem C4_logical_wrapping (op : String) (conds : List Cond) (d : Dialect) (p : Nat) :
    (conds.length ≥ 2 →
      Cond.toSQL (.logical op conds) d p =
        ("(" ++ goJoin (" " ++ op ++ " ") (condListSQL conds d p).1 ++ ")",
          (condListSQL conds d p).2.1, (condListSQL conds d p).2.2)) ∧
    (∀ c, conds = [c] → Cond.toSQL (.logical op conds) d p = c.toSQL d p) := by
  constructor
  · intro hge
    have hlen : ¬conds.length = 0 := by omega
    have hgt : (condListSQL conds d p).1.length > 1 := by
      rw [condListSQL_length]; omega
    rw [Cond.toSQL.eq_def]
    simp only [hlen, if_false, hgt, if_true]
  · rintro c rfl
    have hlen : ¬([c] : List Cond).length = 0 := by simp
    have hgt : ¬(condListSQL [c] d p).1.length > 1 := by
      rw [condListSQL_length]; simp
    rw [Cond.toSQL.eq_def]
    simp [hlen, hgt, condListSQL, goJoin]

/-- C4 witness: the wrapping equation at a two-child AND and the identity at
the one-child AND. -/
theorem C4_witness :
    Cond.toSQL (.logical "AND" [qEq "a" (.vint 1), qEq "b" (.vint 2)]) postgresDialect 0 =
      ("(" ++ goJoin (" " ++ "AND" ++ " ")
          (condListSQL [qEq "a" (.vint 1), qEq "b" (.vint 2)] postgresDialect 0).1 ++ ")",
        (condListSQL [qEq "a" (.vint 1), qEq "b" (.vint 2)] postgresDialect 0).2.1,
        (condListSQL [qEq "a" (.vint 1), qEq "b" (.vint 2)] postgresDialect 0).2.2) ∧
    Cond.toSQL (.logical "AND" [qEq "a" (.vint 1)]) postgresDialect 0 =
      (qEq "a" (.vint 1)).toSQL postgresDialect 0 :=
  ⟨(C4_logical_wrapping "AND" [qEq "a" (.vint 1), qEq "b" (.vint 2)] postgresDialect 0).1
      (by simp),
   (C4_logical_wrapping "AND" [qEq "a" (.vint 1)] postgresDialect 0).2 (qEq "a" (.vint 1)) rfl⟩

/-- C5 counterexample: `Insert("t").FromSelect(emptySelect)` selects exactly
one insertion mode and has no arity problem, yet `ToSQL` returns an error —
the propagated render failure of the embedded SELECT — refuting the claimed
"error if and only if the mode count differs from one". -/
theorem C5_counterexample :
    insertionMethods c5errIb = 1 ∧
    c5errIb.table ≠ "" ∧
    arityOk c5errIb = true ∧
    (insertToSQL c5errIb).1 = .error "no table or subquery specified for FROM clause" := by
  refine ⟨by decide, by decide, by decide, rfl⟩

/-- C5 (amended): for an insert builder with a non-empty table, leaving
aside arity errors and propagated FROM-SELECT render failures, `ToSQL`
fails exactly when the number of selected insertion modes differs from one;
in particular setting both VALUES and FROM-SELECT yields the
insertion-mode-conflict error. -/
theorem C5_insertion_mode_validation (ib : InsertB) (ht : ib.table ≠ "")
    (har : arityOk ib = true) (hsel : fromSelectOk ib = true) :
    (exOk (insertToSQL ib).1 = false ↔ insertionMethods ib ≠ 1) ∧
    (ib.values.length > 0 → ib.fromSelect.isSome →
      (insertToSQL ib).1 =
        .error "cannot specify multiple insertion methods (VALUES, FROM SELECT, DEFAULT VALUES)") := by
  have hvalid0 : insertionMethods ib = 0 →
      validateInsert ib = some "no values, select query, or DEFAULT VALUES specified" := by
    intro hm
    rw [validateInsert.eq_def, if_neg ht]
    simp [hm]
  have hvalid2 : insertionMethods ib > 1 →
      validateInsert ib =
        some "cannot specify multiple insertion methods (VALUES, FROM SELECT, DEFAULT VALUES)" := by
    intro hm
    rw [validateInsert.eq_def, if_neg ht]
    have : ¬insertionMethods ib = 0 := by omega
    simp [this, hm]
  have hvalid1 : insertionMethods ib = 1 → validateInsert ib = none := by
    intro hm
    rw [validateInsert.eq_def, if_neg ht]
    have h0 : ¬insertionMethods ib = 0 := by omega
    have h2 : ¬insertionMethods ib > 1 := by omega
    simp only [h0, if_false, hm, h2, if_true, Nat.lt_irrefl]
    by_cases hc : ib.columns.length > 0 ∧ ib.values.length > 0
    · rw [if_pos hc]
      have hfind : ib.values.find? (fun row => row.length ≠ ib.columns.length) = none := by
        rw [List.find?_eq_none]
        intro row hrow
        simp only [arityOk, Bool.or_eq_true, decide_eq_true_eq, List.all_eq_true] at har
        rcases har with h | h
        · omega
        · have := h row hrow
          simp at this
          simp [this]
      rw [hfind]
      simp
    · rw [if_neg hc]
      simp
  constructor
  · constructor
    · intro herr
      intro hm
      have hv := hvalid1 hm
      rw [insertToSQL.eq_def, hv] at herr
      by_cases hd : ib.useDefaults
      · simp [buildValuesOrSelectOrDefault, hd, exOk] at herr
      · cases hfs : ib.fromSelect with
        | some sel =>
          simp only [fromSelectOk, hfs] at hsel
          cases hrender : (selectToSQL sel).1 with
          | error e => rw [hrender] at hsel; simp [exOk] at hsel
          | ok r =>
            simp [buildValuesOrSelectOrDefault, hd, hfs, hrender, exOk] at herr
        | none =>
          simp [buildValuesOrSelectOrDefault, hd, hfs, exOk] at herr
    · intro hm
      by_cases h0 : insertionMethods ib = 0
      · rw [insertToSQL.eq_def, hvalid0 h0]
        rfl
      · have h2 : insertionMethods ib > 1 := by omega
        rw [insertToSQL.eq_def, hvalid2 h2]
        rfl
  · intro hv hf
    have hm : insertionMethods ib > 1 := by
      simp only [insertionMethods]
      have h1 : (if ib.values.length > 0 then 1 else 0) = 1 := by simp [hv]
      have h2 : (if ib.fromSelect.isSome then 1 else 0) = 1 := by simp [hf]
      omega
    rw [insertToSQL.eq_def, hvalid2 hm]

/-- C5 witness: the amended claim at `Insert("t").Values(1)` (renders
without error) and at `Insert("t").Values(1).FromSelect(okSelect)` (the
conflict error). -/
theorem C5_witness :
    exOk (insertToSQL c5okIb).1 = true ∧
    (insertToSQL c5conflictIb).1 =
      .error "cannot specify multiple insertion methods (VALUES, FROM SELECT, DEFAULT VALUES)" := by
  constructor
  · have h1 := (C5_insertion_mode_validation c5okIb (by decide) (by decide) (by decide)).1
    cases hv : exOk (insertToSQL c5okIb).1 with
    | false => exact absurd (h1.mp hv) (by decide)
    | true => rfl
  · exact (C5_insertion_mode_validation c5conflictIb (by decide) (by decide) (by decide)).2
      (by decide) (by decide)

/-- C6: `Delete("t").Limit(5)` renders with no LIMIT clause and no argument
under PostgreSQL, and with ` LIMIT ?` plus argument `5` under MySQL — in
both delete variants (top-level with its verbatim table, builder-package
with its escaped table). -/
theorem C6_delete_limit_gating :
    (deleteToSQL (c6del postgresDialect)).1 = .ok ("DELETE FROM t", []) ∧
    strCount "DELETE FROM t" " LIMIT " = 0 ∧
    (deleteToSQL (c6del mysqlDialect)).1 = .ok ("DELETE FROM t LIMIT ?", [.vint 5]) ∧
    strCount "DELETE FROM t LIMIT ?" " LIMIT ?" = 1 ∧
    (builderDeleteToSQL (c6bdel builderPostgresDialect)).1 = .ok ("DELETE FROM \"t\"", []) ∧
    strCount "DELETE FROM \"t\"" " LIMIT " = 0 ∧
    (builderDeleteToSQL (c6bdel builderMysqlDialect)).1 =
      .ok ("DELETE FROM `t` LIMIT ?", [.vint 5]) := by
  exact ⟨rfl, by decide, rfl, by decide, rfl, by decide, rfl⟩

/-- C7 counterexample: a subquery-valued condition whose embedded builder
fails does not propagate the failure — the outer select still succeeds,
splicing `()` where the subquery render was discarded (`_` in
`baseCondition.ToSQL`). -/
theorem C7_counterexample :
    (Val.vsub (.error "no table or subquery specified for FROM clause")).goSub =
      .error "no table or subquery specified for FROM clause" ∧
    (selectToSQL c7sel).1 = .ok ("SELECT * FROM t WHERE `x` = () GROUP BY ", []) := by
  refine ⟨rfl, ?_⟩
  simp [c7sel, c7sub, selectToSQL, buildFromClause, buildJoinClauses, buildSelectClause,
    buildWhereClause, condListSQL, Cond.toSQL, buildGroupByClause, buildHavingClause,
    buildOrderByClause, buildLimitClause, buildOffsetClause, mysqlDialect, escapeMySQLIdent,
    goReplaceAll, goReplaceChars, goReplaceCharsAux, goJoin, Val.goSub, resOrEmpty]

/-- C7 (amended): a failing subquery render propagates unchanged to the
outer statement's error for a FROM-clause subquery, for the first failing
JOIN subquery (earlier joins rendering fine), and for an insert's
FROM-SELECT; for a subquery-valued condition, however, the inner error is
discarded and rendering continues (see the counterexample). -/
theorem C7_subquery_error_propagation :
    (∀ (sb : SelectB) (sub : Subq) (e : String),
      sb.subquery = some sub → sub.result = .error e →
      (selectToSQL sb).1 = .error e) ∧
    (∀ (sb : SelectB) (j : Join) (pre post : List Join) (sub : Subq) (e : String),
      sb.subquery = none → sb.table ≠ "" → sb.joins = pre ++ j :: post →
      (∀ j' ∈ pre, joinOk j' = true) →
      j.subquery = some sub → sub.result = .error e →
      (selectToSQL sb).1 = .error e) ∧
    (∀ (ib : InsertB) (sel : SelectB) (e : String),
      ib.table ≠ "" → ib.values = [] → ib.useDefaults = false →
      ib.fromSelect = some sel → (selectToSQL sel).1 = .error e →
      (insertToSQL ib).1 = .error e) := by
  refine ⟨?_, ?_, ?_⟩
  · intro sb sub e hsub herr
    have hguard : ¬(sb.table = "" ∧ sb.subquery.isNone) := by
      simp [hsub]
    rw [selectToSQL.eq_def, if_neg hguard]
    have hfrom : buildFromClause sb = .error e := by
      rw [buildFromClause.eq_def, hsub]
      simp [Subq.toSQL, herr]
    rw [hfrom]
  · intro sb j pre post sub e hsub ht hjoins hpre hjsub herr
    have hguard : ¬(sb.table = "" ∧ sb.subquery.isNone) := by
      simp [ht]
    rw [selectToSQL.eq_def, if_neg hguard]
    have hfrom : buildFromClause sb = .ok (" FROM " ++ sb.table, []) := by
      rw [buildFromClause.eq_def, hsub]
    rw [hfrom]
    have hjc : joinClause j = .error e := by
      rw [joinClause.eq_def, hjsub]
      simp [Subq.toSQL, herr]
    have hjall : buildJoinClauses sb.joins = .error e := by
      rw [hjoins]
      clear hjoins
      induction pre with
      | nil =>
        rw [List.nil_append, buildJoinClauses.eq_def]
        simp [hjc]
      | cons q qre ih =>
        have hq : joinOk q = true := hpre q (by simp)
        have hrest := ih (fun j' hj' => hpre j' (by simp [hj']))
        rw [List.cons_append, buildJoinClauses.eq_def]
        simp only [joinOk, exOk] at hq
        cases hqc : joinClause q with
        | error e2 => rw [hqc] at hq; simp at hq
        | ok r =>
          simp only [hqc]
          rw [hrest]
    rw [hjall]
  · intro ib sel e ht hv hd hfs herr
    have hvalid : validateInsert ib = none := by
      rw [validateInsert.eq_def, if_neg ht]
      have hm : insertionMethods ib = 1 := by
        simp [insertionMethods, hv, hd, hfs]
      simp [hm, hv]
    rw [insertToSQL.eq_def, hvalid]
    have hbuild : buildValuesOrSelectOrDefault ib ib.paramCounter = .error e := by
      rw [buildValuesOrSelectOrDefault.eq_def]
      simp [hd, hfs, herr]
    rw [hbuild]

/-- C7 witness: propagation at a concrete failing FROM subquery, a concrete
failing JOIN subquery, and a concrete failing insert FROM-SELECT. -/
theorem C7_witness :
    (selectToSQL c7fromSel).1 = .error "boom" ∧
    (selectToSQL c7joinSel).1 = .error "boom" ∧
    (insertToSQL c7insErr).1 = .error "no table or subquery specified for FROM clause" :=
  ⟨C7_subquery_error_propagation.1 c7fromSel { result := .error "boom", asName := "p" } "boom"
      rfl rfl,
   C7_subquery_error_propagation.2.1 c7joinSel c7join [] [] 
      { result := .error "boom", asName := "o" } "boom" rfl (by decide) rfl
      (by intro j' hj'; simp at hj') rfl rfl,
   C7_subquery_error_propagation.2.2 c7insErr emptySel
      "no table or subquery specified for FROM clause" (by decide) rfl rfl rfl rfl⟩

/-- C8 counterexample: the top-level delete builder writes its target table
verbatim — `DELETE FROM t` — not through `EscapeIdentifier` (which would
produce `"t"` under PostgreSQL), refuting "every identifier position is
dialect-quoted". -/
theorem C8_counterexample :
    (deleteToSQL c8del).1 = .ok ("DELETE FROM t", []) ∧
    postgresDialect.escapeIdentifier "t" = "\"t\"" ∧
    strCount "DELETE FROM t" "\"t\"" = 0 := by
  exact ⟨rfl, rfl, by decide⟩

/-- C8 (amended): identifier quoting is variant-dependent: the
builder-package delete renders its table through the dialect's
`EscapeIdentifier`, while the top-level delete (like the top-level insert
and select list) writes the table name verbatim. -/
theorem C8_identifier_escaping_by_variant (t : String) (d : Dialect) (ht : t ≠ "") :
    (builderDeleteToSQL { dialect := d, table := t }).1 =
      .ok ("DELETE FROM " ++ d.escapeIdentifier t, []) ∧
    (deleteToSQL { dialect := d, table := t }).1 = .ok ("DELETE FROM " ++ t, []) := by
  constructor
  · rw [builderDeleteToSQL.eq_def]
    simp [ht, buildWhereClause, buildOrderByClauseBD, buildLimitClauseBD,
      buildReturningClauseBD, String.append_empty]
  · rw [deleteToSQL.eq_def]
    simp [ht, buildWhereClause, buildOrderByClauseD, buildLimitClauseD,
      buildReturningClauseD, joinAll, String.append_empty]

/-- C8 witness: the contrast at table `t` under PostgreSQL. -/
theorem C8_witness :
    (builderDeleteToSQL { dialect := postgresDialect, table := "t" }).1 =
      .ok ("DELETE FROM " ++ postgresDialect.escapeIdentifier "t", []) ∧
    (deleteToSQL { dialect := postgresDialect, table := "t" }).1 =
      .ok ("DELETE FROM " ++ "t", []) :=
  C8_identifier_escaping_by_variant "t" postgresDialect (by decide)

/-- C9: for the select and update builders (the cited implementations) under
a numbered-style dialect, when a first successful render consumed at least
one placeholder (the builder-owned counter advanced), a second render of
the returned builder state yields different SQL text, and its placeholder
run continues from the counter value the first render left behind instead
of restarting at the original value. -/
theorem C9_repeated_render_double_counts :
    (∀ sb : SelectB, numberedStyle sb.dialect →
      ∀ (sql1 : String) (args1 : List Val) (sb1 : SelectB) (sql2 : String)
        (args2 : List Val) (sb2 : SelectB),
        selectToSQL sb = (.ok (sql1, args1), sb1) →
        selectToSQL sb1 = (.ok (sql2, args2), sb2) →
        sb.paramCount < sb1.paramCount →
        sql1 ≠ sql2 ∧
        phList (selChunksOf sb1) =
          List.range' sb1.paramCount (sb1.paramCount - sb.paramCount)) ∧
    (∀ u : UpdateB, numberedStyle u.dialect →
      ∀ (sql1 : String) (args1 : List Val) (u1 : UpdateB) (sql2 : String)
        (args2 : List Val) (u2 : UpdateB),
        updateToSQL u = (.ok (sql1, args1), u1) →
        updateToSQL u1 = (.ok (sql2, args2), u2) →
        u.paramCount < u1.paramCount →
        sql1 ≠ sql2 ∧
        phList (updChunksOf u1) =
          List.range' u1.paramCount (u1.paramCount - u.paramCount)) := by
  constructor
  · intro sb hnum sql1 args1 sb1 sql2 args2 sb2 h1 h2 hcons
    obtain ⟨pfx, hd⟩ := hnum
    refine ⟨select_double_render sb pfx hd sql1 sql2 args1 args2 sb1 sb2 h1 h2 hcons, ?_⟩
    obtain ⟨c1a, c1b, c1c⟩ := selectToSQL_chunks sb sql1 args1 sb1 h1
    obtain ⟨c2a, c2b, c2c⟩ := selectToSQL_chunks sb1 sql2 args2 sb2 h2
    have hsb1 : sb1 = { sb with paramCount := sb1.paramCount } := by
      have := selectToSQL_state sb
      rw [h1] at this
      exact this
    have hshape : SameShape (selChunksOf sb) (selChunksOf sb1) := by
      rw [hsb1, show sb = { sb with paramCount := sb.paramCount } from rfl]
      exact selChunksOf_shape sb sb.paramCount sb1.paramCount
    have hk2 : sb2.paramCount - sb1.paramCount = sb1.paramCount - sb.paramCount := by
      have hlen := hshape.phList_length
      rw [c1b, c2b] at hlen
      rw [List.length_range', List.length_range'] at hlen
      omega
    rw [c2b, hk2]
  · intro u hnum sql1 args1 u1 sql2 args2 u2 h1 h2 hcons
    obtain ⟨pfx, hd⟩ := hnum
    refine ⟨update_double_render u pfx hd sql1 sql2 args1 args2 u1 u2 h1 h2 hcons, ?_⟩
    obtain ⟨c1a, c1b, c1c⟩ := updateToSQL_chunks u sql1 args1 u1 h1
    obtain ⟨c2a, c2b, c2c⟩ := updateToSQL_chunks u1 sql2 args2 u2 h2
    have hu1 : u1 = { u with paramCount := u1.paramCount } := by
      have := updateToSQL_state u
      rw [h1] at this
      exact this
    have hshape : SameShape (updChunksOf u) (updChunksOf u1) := by
      rw [hu1, show u = { u with paramCount := u.paramCount } from rfl]
      exact updChunksOf_shape u u.paramCount u1.paramCount
    have hk2 : u2.paramCount - u1.paramCount = u1.paramCount - u.paramCount := by
      have hlen := hshape.phList_length
      rw [c1b, c2b] at hlen
      rw [List.length_range', List.length_range'] at hlen
      omega
    rw [c2b, hk2]

/-- C9 witness: rendering `Select("id").From("t").Where(Eq("x",5)).Limit(10)`
twice under PostgreSQL: the first render numbers `$1, $2`, the second
`$3, $4`, and the second render's placeholder indices are `2, 3`. -/
theorem C9_witness :
    ("SELECT id FROM t WHERE \"x\" = $1 GROUP BY  LIMIT $2" : String) ≠
      "SELECT id FROM t WHERE \"x\" = $3 GROUP BY  LIMIT $4" ∧
    phList (selChunksOf { w9sel with paramCount := 2 }) = List.range' 2 2 := by
  have h1 : selectToSQL w9sel =
      (.ok ("SELECT id FROM t WHERE \"x\" = $1 GROUP BY  LIMIT $2", [.vint 5, .vint 10]),
        { w9sel with paramCount := 2 }) := by
    simp [w9sel, selectToSQL, buildFromClause, buildJoinClauses, buildSelectClause,
      buildWhereClause, condListSQL, Cond.toSQL, qEq, buildGroupByClause, buildHavingClause,
      buildOrderByClause, buildLimitClause, buildOffsetClause, postgresDialect,
      escapeDQIdent, goReplaceAll, goReplaceChars, goReplaceCharsAux, natToDec, natDigitsRev,
      natDigitsRevAux, digitChar, goJoin, joinAll]
  have h2 : selectToSQL { w9sel with paramCount := 2 } =
      (.ok ("SELECT id FROM t WHERE \"x\" = $3 GROUP BY  LIMIT $4", [.vint 5, .vint 10]),
        { w9sel with paramCount := 4 }) := by
    simp [w9sel, selectToSQL, buildFromClause, buildJoinClauses, buildSelectClause,
      buildWhereClause, condListSQL, Cond.toSQL, qEq, buildGroupByClause, buildHavingClause,
      buildOrderByClause, buildLimitClause, buildOffsetClause, postgresDialect,
      escapeDQIdent, goReplaceAll, goReplaceChars, goReplaceCharsAux, natToDec, natDigitsRev,
      natDigitsRevAux, digitChar, goJoin, joinAll]
  exact C9_repeated_render_double_counts.1 w9sel ⟨"$", fun i => rfl⟩
    "SELECT id FROM t WHERE \"x\" = $1 GROUP BY  LIMIT $2" [.vint 5, .vint 10]
    { w9sel with paramCount := 2 }
    "SELECT id FROM t WHERE \"x\" = $3 GROUP BY  LIMIT $4" [.vint 5, .vint 10]
    { w9sel with paramCount := 4 } h1 h2 (by decide)

theorem raw_pre_isPrefixOf (s : String) : goHasPre "RAW:" ("RAW:" ++ s) = true := by
  have h : ("RAW:" ++ s).data = "RAW:".data ++ s.data := String.data_append _ _
  simp only [goHasPre, h]
  exact List.isPrefixOf_iff_prefix.mpr (List.prefix_append _ _)

theorem goTrimPre_raw (s : String) : goTrimPre "RAW:" ("RAW:" ++ s) = s := by
  simp only [goTrimPre, raw_pre_isPrefixOf, if_true]
  have hd : ("RAW:" ++ s).data = "RAW:".data ++ s.data := String.data_append _ _
  rw [hd]
  have : ("RAW:" : String).length = ("RAW:" : String).data.length := rfl
  rw [this, List.drop_left]

/-- C10 counterexample: `Values("RAW:xDROPx")` does not panic although the
text after `RAW:` contains the blocked keyword `DROP` — the regex requires
word boundaries (`\bDROP\b`), and `xDROPx` has none — so the value is
accepted as a raw expression. -/
theorem C10_counterexample :
    strCount "xDROPx" "DROP" = 1 ∧
    insertValues c10ib [.vstr "RAW:xDROPx"] =
      .ok { c10ib with values := [[.vraw "xDROPx" false]] } := by
  exact ⟨by decide, rfl⟩

/-- C10 (amended): a `Values` string starting with `RAW:` is converted by
`Raw`: if the remaining text contains a blocked keyword
(DROP/DELETE/INSERT/UPDATE/ALTER, case-insensitive) *as a word-bounded
occurrence*, the call panics; otherwise the text is stored as a raw
expression and, at render time, spliced verbatim into the VALUES clause
with no placeholder and no argument.  A panicking input exists
(`"RAW:DROP TABLE users"`). -/
theorem C10_raw_values_blocklist :
    (∀ s : String, matchesInjection s = false →
      insertValues c10ib [.vstr ("RAW:" ++ s)] =
        .ok { c10ib with values := [[.vraw s false]] } ∧
      (insertToSQL { c10ib with values := [[.vraw s false]] }).1 =
        .ok ("INSERT INTO t VALUES (" ++ s ++ ")", [])) ∧
    (∀ s : String, matchesInjection s = true →
      insertValues c10ib [.vstr ("RAW:" ++ s)] =
        .error "potentially dangerous raw SQL expression") ∧
    insertValues c10ib [.vstr "RAW:DROP TABLE users"] =
      .error "potentially dangerous raw SQL expression" := by
  refine ⟨?_, ?_, by rfl⟩
  · intro s hm
    constructor
    · simp [insertValues, processValues, processValue, raw_pre_isPrefixOf, goTrimPre_raw,
        rawExpr, hm, c10ib]
    · rw [insertToSQL.eq_def]
      have hvalid : validateInsert { c10ib with values := [[.vraw s false]] } = none := by
        rfl
      rw [hvalid]
      have hbuild : buildValuesOrSelectOrDefault { c10ib with values := [[.vraw s false]] }
          ({ c10ib with values := [[Val.vraw s false]] } : InsertB).paramCounter =
          .ok (" VALUES " ++ ("(" ++ s ++ ")"), [], 0) := by
        rw [buildValuesOrSelectOrDefault.eq_def]
        simp [c10ib, rowsRender, rowRender, goJoin]
      rw [hbuild]
      simp [buildOnConflict, buildReturning, buildColumns, c10ib, String.append_assoc,
        String.append_empty, String.empty_append]
      simp only [← String.append_assoc]
      rfl
  · intro s hm
    simp [insertValues, processValues, processValue, raw_pre_isPrefixOf, goTrimPre_raw,
      rawExpr, hm]

/-- C10 witness: the non-panicking path at `RAW:CURRENT_TIMESTAMP` — stored
raw, spliced verbatim, no argument. -/
theorem C10_witness :
    insertValues c10ib [.vstr "RAW:CURRENT_TIMESTAMP"] =
      .ok { c10ib with values := [[.vraw "CURRENT_TIMESTAMP" false]] } ∧
    (insertToSQL { c10ib with values := [[.vraw "CURRENT_TIMESTAMP" false]] }).1 =
      .ok ("INSERT INTO t VALUES (" ++ "CURRENT_TIMESTAMP" ++ ")", []) :=
  C10_raw_values_blocklist.1 "CURRENT_TIMESTAMP" (by decide)
